import Mathlib

/-!
Verification development for the member-qa service.

The Python sources under app/ are shallowly embedded below:

* app/utils.py   : text normalization, focus-term extraction, the date-like
  and quantity-like evidence detectors (regexes modelled as executable
  character-list matchers with Python `re` word-boundary semantics for the
  ASCII fragment actually exercised);
* app/retrieval.py : the corpus fetcher (HTTP via an oracle function from
  URLs to responses), the index builder, reciprocal-rank fusion and the
  hybrid search pipeline.  Floating point scores are modelled by exact
  rationals; the external ML models (sentence embedder, BM25 scorer,
  cross-encoder) are oracle function parameters, applied exactly where the
  source applies them;
* app/main.py    : the /ask gate pipeline and the module-attribute lookup
  performed by its store accessor.
-/

namespace MemberQA

/-! ### Character and string helpers -/

/-- The ASCII apostrophe character. -/
def apos : Char := Char.ofNat 39

/-- Python whitespace for str.split / regex blackslash-s (ASCII fragment). -/
def isSpacePy (c : Char) : Bool :=
  c == ' ' || c == '\t' || c == '\n' || c == '\r' || c == Char.ofNat 11 || c == Char.ofNat 12

/-- Python regex word character (ASCII fragment): letters, digits, underscore. -/
def isWordCharPy (c : Char) : Bool :=
  c.isAlpha || c.isDigit || c == '_'

/-- Lowercase a string into its character list (Python str.lower, ASCII fragment). -/
def lcList (s : String) : List Char :=
  s.data.map Char.toLower

/-- Check that the first list is a prefix of the second. -/
def prefixChars : List Char → List Char → Bool
  | [], _ => true
  | _ :: _, [] => false
  | a :: as, b :: bs => a == b && prefixChars as bs

/-- Python substring containment: needle occurs contiguously in hay. -/
def subIn (needle : List Char) : List Char → Bool
  | [] => prefixChars needle []
  | c :: cs => prefixChars needle (c :: cs) || subIn needle cs

/-- Accumulator scanner for str.split(): collect maximal non-whitespace runs
(the accumulator holds the current run reversed). -/
def splitPyAux : List Char → List Char → List (List Char)
  | [], acc => if acc.isEmpty then [] else [acc.reverse]
  | c :: cs, acc =>
    if isSpacePy c then
      if acc.isEmpty then splitPyAux cs [] else acc.reverse :: splitPyAux cs []
    else splitPyAux cs (c :: acc)

/-- Python str.split(): split on whitespace runs, dropping empty pieces. -/
def splitPy (l : List Char) : List (List Char) :=
  splitPyAux l []

/-- Python str.strip(): drop leading and trailing whitespace. -/
def stripChars (l : List Char) : List Char :=
  ((l.dropWhile isSpacePy).reverse.dropWhile isSpacePy).reverse

/-- utils.normalize_text: collapse whitespace runs and strip the ends. -/
def normalizeText (s : String) : String :=
  String.mk (List.intercalate [' '] (splitPy s.data))

/-! ### utils.py tokenizers -/

/-- Character class of retrieval._token_re: lowercase letters, digits, apostrophe. -/
def isTokChar (c : Char) : Bool :=
  c.isLower || c.isDigit || c == apos

/-- Accumulator scanner collecting maximal token-character runs. -/
def tokenRunsAux : List Char → List Char → List (List Char)
  | [], acc => if acc.isEmpty then [] else [acc.reverse]
  | c :: cs, acc =>
    if isTokChar c then tokenRunsAux cs (c :: acc)
    else if acc.isEmpty then tokenRunsAux cs [] else acc.reverse :: tokenRunsAux cs []

/-- Maximal runs of token characters, i.e. re.findall of the pattern
of retrieval._token_re over an already lowercased text. -/
def tokenRuns (l : List Char) : List (List Char) :=
  tokenRunsAux l []

/-- retrieval._tokenize: lowercase, then extract token-character runs. -/
def tokenize (s : String) : List String :=
  (tokenRuns (lcList s)).map String.mk

/-- Tail characters of utils._WORD: letters, hyphen, apostrophe. -/
def isWordTail (c : Char) : Bool :=
  c.isAlpha || c == '-' || c == apos

/-- State-machine scanner for utils._WORD: outside a token (state none)
only a letter can open one; inside (state some of first letter and reversed
tail) any tail character extends it, and a token counts only with a
nonempty tail.  A character that ends a token can never start one (the tail
class contains every letter), so the scan never re-reads it. -/
def wordTokensAux : List Char → Option (Char × List Char) → List (List Char)
  | [], none => []
  | [], some (f, acc) => if acc.isEmpty then [] else [f :: acc.reverse]
  | c :: cs, none =>
    if c.isAlpha then wordTokensAux cs (some (c, [])) else wordTokensAux cs none
  | c :: cs, some (f, acc) =>
    if isWordTail c then wordTokensAux cs (some (f, c :: acc))
    else if acc.isEmpty then wordTokensAux cs none
    else (f :: acc.reverse) :: wordTokensAux cs none

/-- re.findall of utils._WORD: a letter followed by one or more letters,
hyphens or apostrophes; non-overlapping, greedy, scanning left to right. -/
def wordTokens (l : List Char) : List (List Char) :=
  wordTokensAux l none

/-- Find the first occurrence of a character, returning the pieces before
and after it. -/
def splitAtChar (q : Char) : List Char → Option (List Char × List Char)
  | [] => none
  | c :: cs =>
    if c == q then some ([], cs)
    else match splitAtChar q cs with
      | some (a, b) => some (c :: a, b)
      | none => none

/-- Opening quote characters recognized by the quoted-phrase regex of
utils.extract_focus_terms, mapped to their closing counterpart. -/
def closeQuote (c : Char) : Option Char :=
  if c == '"' then some '"'
  else if c == '“' then some '”'
  else if c == apos then some apos
  else none

/-- Fuelled scanner for re.findall of the quoted-phrase pattern: at an opening
quote take the (nonempty) content up to the matching closing quote and resume
after it, otherwise advance one character. -/
def findQuotedAux : Nat → List Char → List (List Char)
  | 0, _ => []
  | _, [] => []
  | Nat.succ fuel, c :: cs =>
    match closeQuote c with
    | some cl =>
      match splitAtChar cl cs with
      | some (content, rest) =>
        if content.isEmpty then findQuotedAux fuel cs
        else content :: findQuotedAux fuel rest
      | none => findQuotedAux fuel cs
    | none => findQuotedAux fuel cs

/-- Quoted phrases of a question (the fuel is an upper bound on scan steps). -/
def findQuoted (l : List Char) : List (List Char) :=
  findQuotedAux l.length l

/-- The stop-word set utils._GENERIC. -/
def genericWords : List String :=
  ["what", "which", "who", "when", "where", "why", "how", "much", "many",
   "plan", "planning", "trip", "travel", "vacation", "book", "booking",
   "secure", "arrange", "need", "want",
   "restaurant", "restaurants", "dinner", "reservation", "reservations",
   "table", "tables", "seat", "seats",
   "family", "please", "thanks", "thank", "you", "my", "his", "her", "their",
   "the", "a", "an", "at", "for", "to", "in", "on", "with", "of", "and", "or",
   "is", "are", "was", "were", "do", "does", "did"]

/-- Deduplicate, dropping empty entries, keeping first occurrences
(the seen-set loop of utils.extract_focus_terms). -/
def dedupNonempty (seen : List String) : List String → List String
  | [] => []
  | t :: ts =>
    if t.isEmpty || seen.contains t then dedupNonempty seen ts
    else t :: dedupNonempty (t :: seen) ts

/-- utils.extract_focus_terms: quoted phrases verbatim, then lowercased word
tokens longer than 2 characters that are neither tokens of the matched
person name nor stop words; dedupe and cap at 5. -/
def extractFocusTerms (question : String) (personName : Option String) : List String :=
  let q := stripChars question.data
  let phrases := (findQuoted q).map String.mk
  let words := (wordTokens q).map (fun w => String.mk (w.map Char.toLower))
  let nameTokens : List String :=
    match personName with
    | some n => (splitPy (lcList n)).map String.mk
    | none => []
  let focusWords := words.filter (fun w =>
    decide (2 < w.length) && !(nameTokens.contains w) && !(genericWords.contains w))
  (dedupNonempty []
    ((phrases ++ focusWords).map (fun t => String.mk ((stripChars t.data).map Char.toLower)))).take 5

/-- utils.detect_topic keyword lists. -/
def travelWords : List String :=
  ["book", "flight", "hotel", "suite", "room", "villa", "check-in",
   "itinerary", "trip", "travel"]

/-- Dining keywords; the two chef-table variants differ in apostrophe glyph. -/
def diningWords : List String :=
  ["restaurant", "dinner", "table", "reservation",
   "chef’s table", String.mk (['c', 'h', 'e', 'f', apos, 's'] ++ " table".data)]

/-- Billing keywords of utils.detect_topic. -/
def billingWords : List String :=
  ["invoice", "billing", "charge", "payment", "renewal", "transaction",
   "points", "loyalty"]

/-- utils.detect_topic: first matching keyword family wins. -/
def detectTopic (question : String) : String :=
  let q := lcList question
  if travelWords.any (fun k => subIn k.data q) then "travel"
  else if diningWords.any (fun k => subIn k.data q) then "dining"
  else if billingWords.any (fun k => subIn k.data q) then "billing"
  else "general"

/-! ### utils.py evidence-type detectors -/

/-- Spelled-out number words of utils._NUMBER_WORDS. -/
def numberWords : List String :=
  ["zero", "one", "two", "three", "four", "five", "six", "seven", "eight",
   "nine", "ten", "eleven", "twelve", "thirteen", "fourteen", "fifteen",
   "sixteen", "seventeen", "eighteen", "nineteen", "twenty", "thirty",
   "forty", "fifty", "sixty", "seventy", "eighty", "ninety", "hundred",
   "thousand", "million"]

/-- Word-boundary state: true when the previous character (if any) is a word
character, so that no boundary precedes a word character here. -/
def wordPrev : Option Char → Bool
  | none => false
  | some p => isWordCharPy p

/-- Scanner for re.search of a digit run enclosed in word boundaries
(the digit check of utils.has_quantityish). -/
def boundedDigitRunAux : Option Char → List Char → Bool
  | _, [] => false
  | prev, c :: cs =>
    (c.isDigit && !wordPrev prev &&
      (match List.dropWhile Char.isDigit cs with
       | [] => true
       | d :: _ => !isWordCharPy d)) ||
    boundedDigitRunAux (some c) cs

/-- Whether the lowercased text contains a word-boundary-delimited digit run. -/
def hasBoundedDigitRun (l : List Char) : Bool :=
  boundedDigitRunAux none l

/-- utils.has_quantityish: a bounded digit run, or any spelled-out number word
as a plain substring of the lowercased text. -/
def hasQuantityish (text : String) : Bool :=
  let t := lcList text
  hasBoundedDigitRun t || numberWords.any (fun w => subIn w.data t)

/-! ### utils._DATEISH, modelled branch by branch over lowercased text.

Each branch function decides whether the branch matches at the head of the
given character list; existence of a regex match is the existence of a
position and of an expansion choice, so alternations and optional pieces
become finite disjunctions. -/

/-- No word boundary can sit before a word character if the previous
character is also a word character. -/
def boundaryBeforeB : Option Char → Bool
  | none => true
  | some c => !isWordCharPy c

/-- A word boundary follows a word character iff the next character (if any)
is not a word character. -/
def boundaryAfterB : List Char → Bool
  | [] => true
  | c :: _ => !isWordCharPy c

/-- All remainders after consuming between lo and hi digits at the head. -/
def digitsRange (lo hi : Nat) (cs : List Char) : List (List Char) :=
  (List.range (hi + 1)).filterMap (fun k =>
    if lo ≤ k && (cs.take k).length == k && (cs.take k).all Char.isDigit then
      some (cs.drop k)
    else none)

/-- Consume an exact literal at the head. -/
def dropExact (pat : List Char) (cs : List Char) : Option (List Char) :=
  if prefixChars pat cs then some (cs.drop pat.length) else none

/-- Consume one or more whitespace characters (regex blackslash-s-plus;
the atoms following it in the pattern never start with whitespace, so greedy
maximal consumption is equivalent). -/
def wsRun1 (cs : List Char) : Option (List Char) :=
  if (cs.takeWhile isSpacePy).isEmpty then none
  else some (cs.dropWhile isSpacePy)

/-- Consume zero or more whitespace characters (regex blackslash-s-star). -/
def wsRun0 (cs : List Char) : List Char :=
  cs.dropWhile isSpacePy

/-- ISO date branch: four digits, dash, two digits, dash, two digits. -/
def dateB1 : List Char → Bool
  | a :: b :: c :: d :: h1 :: e :: f :: h2 :: g :: h :: rest =>
    a.isDigit && b.isDigit && c.isDigit && d.isDigit && h1 == '-' &&
    e.isDigit && f.isDigit && h2 == '-' && g.isDigit && h.isDigit &&
    boundaryAfterB rest
  | _ => false

/-- Slash or dash date separator. -/
def isSep (c : Char) : Bool := c == '/' || c == '-'

/-- Slash/dash date branch: one or two digits, separator, one or two digits,
optionally another separator and two to four digits, then a boundary. -/
def dateB2 (cs : List Char) : Bool :=
  (digitsRange 1 2 cs).any fun r1 =>
    match r1 with
    | s :: r2 =>
      isSep s &&
      ((digitsRange 1 2 r2).any fun r3 =>
        boundaryAfterB r3 ||
        (match r3 with
         | s2 :: r4 => isSep s2 && ((digitsRange 2 4 r4).any fun r5 => boundaryAfterB r5)
         | [] => false))
    | [] => false

/-- Month stems of the month-name branch. -/
def monthAbbrevs : List (List Char) :=
  (["jan", "feb", "mar", "apr", "may", "jun", "jul", "aug", "sep", "sept",
    "oct", "nov", "dec"].map String.data)

/-- Optional month-stem suffixes of the month-name branch. -/
def monthSuffixes : List (List Char) :=
  (["uary", "ch", "ril", "e", "y", "ust", "tember", "ober", "ember"].map String.data)

/-- After a month stem (and optional suffix): whitespace, a one-or-two-digit
day, optionally a comma, whitespace and a four-digit year, then a boundary. -/
def monthDayTail (cs : List Char) : Bool :=
  match wsRun1 cs with
  | none => false
  | some r2 =>
    (digitsRange 1 2 r2).any fun r3 =>
      boundaryAfterB r3 ||
      (match r3 with
       | c :: r4 =>
         c == ',' && ((digitsRange 4 4 (wsRun0 r4)).any fun r5 => boundaryAfterB r5)
       | [] => false)

/-- Month-name + day branch. -/
def dateB3 (cs : List Char) : Bool :=
  monthAbbrevs.any fun m =>
    match dropExact m cs with
    | none => false
    | some r1 =>
      monthDayTail r1 ||
      monthSuffixes.any fun sf =>
        match dropExact sf r1 with
        | none => false
        | some r2 => monthDayTail r2

/-- Relative day words branch. -/
def relDayWords : List (List Char) :=
  (["today", "tomorrow", "tonight", "tonite", "yesterday"].map String.data)

/-- Relative-day branch: one of the words, then a boundary. -/
def dateB4 (cs : List Char) : Bool :=
  relDayWords.any fun w =>
    match dropExact w cs with
    | some r => boundaryAfterB r
    | none => false

/-- Weekday qualifiers of the weekday branch. -/
def wkQualifiers : List (List Char) :=
  (["this", "next", "coming"].map String.data)

/-- Weekday words, abbreviated and full. -/
def weekdayWords : List (List Char) :=
  (["mon", "tue", "tues", "wed", "thu", "thur", "thurs", "fri", "sat", "sun",
    "monday", "tuesday", "wednesday", "thursday", "friday", "saturday",
    "sunday"].map String.data)

/-- A weekday word at the head followed by a boundary. -/
def weekdayAt (cs : List Char) : Bool :=
  weekdayWords.any fun w =>
    match dropExact w cs with
    | some r => boundaryAfterB r
    | none => false

/-- Weekday branch: optional qualifier, optional whitespace, weekday word,
boundary.  (When the optional whitespace is nonempty the regex boundary sits
between a word character and whitespace or at the string start; for match
existence this is equivalent to also matching directly at the weekday word,
so the prev-character check of the caller suffices.) -/
def dateB5 (cs : List Char) : Bool :=
  weekdayAt (wsRun0 cs) ||
  wkQualifiers.any fun q =>
    match dropExact q cs with
    | some r => weekdayAt (wsRun0 r)
    | none => false

/-- Period units of the this/next period branch. -/
def periodUnits : List (List Char) :=
  (["week", "weekend", "month", "quarter", "year"].map String.data)

/-- This/next + period branch. -/
def dateB6 (cs : List Char) : Bool :=
  (["this", "next"].map String.data).any fun q =>
    match dropExact q cs with
    | none => false
    | some r =>
      match wsRun1 r with
      | none => false
      | some r2 =>
        periodUnits.any fun u =>
          match dropExact u r2 with
          | some r3 => boundaryAfterB r3
          | none => false

/-- Ordinal words of the ordinal-week branch. -/
def ordinalWords : List (List Char) :=
  (["first", "second", "third", "fourth"].map String.data)

/-- Month names, abbreviated and full, for the ordinal-week branch. -/
def monthNamesAll : List (List Char) :=
  monthAbbrevs ++
  (["january", "february", "march", "april", "may", "june", "july", "august",
    "september", "october", "november", "december"].map String.data)

/-- Ordinal-week-of-month branch. -/
def dateB7 (cs : List Char) : Bool :=
  ordinalWords.any fun o =>
    match dropExact o cs with
    | none => false
    | some r1 =>
      match wsRun1 r1 with
      | none => false
      | some r2 =>
        match dropExact "week".data r2 with
        | none => false
        | some r3 =>
          match wsRun1 r3 with
          | none => false
          | some r4 =>
            match dropExact "of".data r4 with
            | none => false
            | some r5 =>
              match wsRun1 r5 with
              | none => false
              | some r6 =>
                monthNamesAll.any fun m =>
                  match dropExact m r6 with
                  | some r7 => boundaryAfterB r7
                  | none => false

/-- Whether some branch of the date pattern matches at this position: a word
boundary must precede (every branch starts with a word character). -/
def dateishAt (prev : Option Char) (cs : List Char) : Bool :=
  boundaryBeforeB prev &&
  (dateB1 cs || dateB2 cs || dateB3 cs || dateB4 cs || dateB5 cs ||
   dateB6 cs || dateB7 cs)

/-- Scan all positions, tracking the previous character. -/
def hasDateishAux (prev : Option Char) : List Char → Bool
  | [] => false
  | c :: cs => dateishAt prev (c :: cs) || hasDateishAux (some c) cs

/-- utils.has_dateish: re.search of utils._DATEISH over the text,
case-insensitively. -/
def hasDateish (text : String) : Bool :=
  hasDateishAux none (lcList text)

/-! ### utils.extract_candidate_name (rapidfuzz scoring as an oracle) -/

/-- Tail character class of the capitalized-span pattern: letters, ASCII or
curly apostrophe, hyphen. -/
def isCapTail (c : Char) : Bool :=
  c.isAlpha || c == apos || c == '’' || c == '-'

/-- One capitalized token: an uppercase letter followed by one or more tail
characters (greedy). -/
def capTok : List Char → Option (List Char × List Char)
  | [] => none
  | c :: cs =>
    if c.isUpper then
      if (cs.takeWhile isCapTail).isEmpty then none
      else some (c :: cs.takeWhile isCapTail, cs.drop (cs.takeWhile isCapTail).length)
    else none

/-- Greedy extension of a capitalized span with further whitespace-separated
capitalized tokens. -/
def capExtend : Nat → List Char → List Char → List Char × List Char
  | 0, acc, cs => (acc, cs)
  | Nat.succ fuel, acc, cs =>
    if (cs.takeWhile isSpacePy).isEmpty then (acc, cs)
    else
      match capTok (cs.drop (cs.takeWhile isSpacePy).length) with
      | some (t, rest) => capExtend fuel (acc ++ cs.takeWhile isSpacePy ++ t) rest
      | none => (acc, cs)

/-- re.findall of the capitalized-span pattern of utils.extract_candidate_name. -/
def capSpans : Nat → List Char → List (List Char)
  | 0, _ => []
  | _, [] => []
  | Nat.succ fuel, c :: cs =>
    match capTok (c :: cs) with
    | some (t, rest) =>
      (capExtend rest.length t rest).1 :: capSpans fuel (capExtend rest.length t rest).2
    | none => capSpans fuel cs

/-- Python max(key=len): first element of maximal length. -/
def maxByLen : List (List Char) → Option (List Char)
  | [] => none
  | c :: cs => some (cs.foldl (fun best x => if best.length < x.length then x else best) c)

/-- utils.extract_candidate_name.  The rapidfuzz call
process.extractOne(q, all_names, scorer=token_set_ratio) is an external
collaborator, passed as the oracle extractOne. -/
def extractCandidateName (extractOne : String → List String → Option (String × ℚ))
    (question : String) (allNames : List String) : Option String × ℚ :=
  let caps := capSpans question.data.length question.data
  let queries :=
    (match maxByLen caps with
     | some m => [String.mk m]
     | none => []) ++ [question]
  let best := queries.foldl
    (fun (best : Option String × ℚ) q =>
      match extractOne q allNames with
      | some (cand, score) => if best.2 < score then (some cand, score) else best
      | none => best)
    (none, 0)
  if 70 ≤ best.2 then best else (none, 0)

/-! ### retrieval.py: data model -/

/-- One fetched message record.  A JSON null user_name is modelled as none
(Python would carry None in the dict). -/
structure Msg where
  user_name : Option String
  timestamp : String
  message : String
deriving Repr, DecidableEq

/-- Python string formatting of a possibly-missing user name. -/
def userStr : Option String → String
  | some s => s
  | none => "None"

/-- The composed per-message text of retrieval.MessageStore._fetch. -/
def composeText (m : Msg) : String :=
  userStr m.user_name ++ " | " ++ m.timestamp ++ " | " ++ m.message

/-- The corpus snapshot fields that MessageStore._fetch replaces as one unit.
embRows models the numpy embedding matrix row list, embCols its column
count (384 for the zero-row matrix of an empty corpus). -/
structure StoreData where
  items : List Msg
  texts : List String
  embRows : List (List ℚ)
  embCols : Nat
  bm25Corpus : List (List String)
  userNames : List String
  hasBm25 : Bool

/-- Keep the first occurrence of each element (set dedup; the subsequent
sort makes the input order irrelevant). -/
def dedupStrings (seen : List String) : List String → List String
  | [] => []
  | t :: ts =>
    if seen.contains t then dedupStrings seen ts
    else t :: dedupStrings (t :: seen) ts

/-- String order for sorted(). -/
def strLe (a b : String) : Prop := a ≤ b

instance : DecidableRel strLe := fun a b => by unfold strLe; infer_instance

instance : IsTotal String strLe := ⟨fun a b => le_total a b⟩

instance : IsTrans String strLe := ⟨fun _ _ _ h h2 => le_trans h h2⟩

/-- retrieval.MessageStore._fetch: build every derived artifact from the
fetched items and replace the snapshot fields together.  The sentence
embedder is the external oracle embedOne (one normalized row per composed
text); an empty corpus yields the zero-by-384 matrix instead of a null
artifact.  (Python would raise on a corpus mixing null and string user
names when sorting the name set; the model applies the None-to-string
rendering uniformly.) -/
def fetchBuild (embedOne : String → List ℚ) (items : List Msg) : StoreData :=
  let texts := items.map composeText
  { items := items
    texts := texts
    embRows := if texts.isEmpty then [] else texts.map embedOne
    embCols := 384
    bm25Corpus := texts.map (fun t => tokenize t)
    userNames :=
      List.insertionSort strLe (dedupStrings [] (items.map (fun it => userStr it.user_name)))
    hasBm25 := !texts.isEmpty }

/-! ### retrieval.py: fetcher over an HTTP oracle -/

/-- An HTTP response as the fetcher observes it: status code, the location
header if any, and the message records carried by the body when it parses
as JSON.  jsonItems is none exactly when r.json() raises (failing the
attempt inside the per-path try of _safe_fetch_messages); a body that
parses but has no items key corresponds to some [], since _fetch's later
data.get("items", []) — which runs outside that try and never causes path
failover — extracts the empty list from it. -/
structure HttpResp where
  status : Nat
  location : Option String
  jsonItems : Option (List Msg)

/-- Redirect statuses recognized by retrieval._authed_get. -/
def redirectStatuses : List Nat := [301, 302, 303, 307, 308]

/-- requests.Response.raise_for_status: raises exactly for the client-error
and server-error ranges, 400 ≤ status < 600; any other status — including
600 and above, which http.client can deliver — passes through. -/
def raiseForStatus (r : HttpResp) : Except String HttpResp :=
  if 400 ≤ r.status ∧ r.status < 600 then
    .error ("HTTPError " ++ toString r.status)
  else .ok r

/-- retrieval._authed_get over a network oracle (url to transport outcome):
one GET with redirects disabled; on a 301/302/303/307/308 response with a
truthy location header, resolve a leading-slash location against the base
and issue exactly one more GET; finally raise_for_status.  The second
component lists the URLs requested. -/
def authedGet (net : String → Except String HttpResp) (base url : String) :
    Except String HttpResp × List String :=
  match net url with
  | .error e => (.error e, [url])
  | .ok r =>
    if redirectStatuses.contains r.status then
      match r.location with
      | some loc0 =>
        if loc0 = "" then (raiseForStatus r, [url])
        else
          let loc := if "/".data.isPrefixOf loc0.data then base ++ loc0 else loc0
          match net loc with
          | .error e => (.error e, [url, loc])
          | .ok r2 => (raiseForStatus r2, [url, loc])
      | none => (raiseForStatus r, [url])
    else (raiseForStatus r, [url])

/-- retrieval._get_messages_once: authed GET then r.json(). -/
def getMessagesOnce (net : String → Except String HttpResp) (base url : String) :
    Except String (List Msg) × List String :=
  match authedGet net base url with
  | (.error e, tr) => (.error e, tr)
  | (.ok r, tr) =>
    match r.jsonItems with
    | some items => (.ok items, tr)
    | none => (.error "JSONDecodeError", tr)

/-- The candidate endpoint paths retrieval._PATHS, in order. -/
def fetchPaths : List String := ["/messages", "/messages/"]

/-- retrieval._safe_fetch_messages: try each path in order, return the first
success, otherwise raise the last error. -/
def safeFetchMessages (net : String → Except String HttpResp) (base : String) :
    Except String (List Msg) × List String :=
  match getMessagesOnce net base (base ++ "/messages") with
  | (.ok v, tr) => (.ok v, tr)
  | (.error _, tr1) =>
    match getMessagesOnce net base (base ++ "/messages/") with
    | (.ok v, tr2) => (.ok v, tr1 ++ tr2)
    | (.error e2, tr2) => (.error e2, tr1 ++ tr2)

/-! ### retrieval.py: ranking primitives -/

/-- Descending argsort order on positions of a score list, ties broken by
position (np.argsort over negated scores; tie order is arbitrary in the
source and fixed here). -/
def scoreRel (s : List ℚ) (i j : Nat) : Prop :=
  s.getD j 0 < s.getD i 0 ∨ (s.getD i 0 = s.getD j 0 ∧ i ≤ j)

instance (s : List ℚ) : DecidableRel (scoreRel s) := fun _ _ => by
  unfold scoreRel; infer_instance

instance (s : List ℚ) : IsTotal Nat (scoreRel s) := by
  constructor
  intro i j
  rcases lt_trichotomy (s.getD i 0) (s.getD j 0) with h | h | h
  · exact Or.inr (Or.inl h)
  · rcases Nat.le_total i j with hij | hij
    · exact Or.inl (Or.inr ⟨h, hij⟩)
    · exact Or.inr (Or.inr ⟨h.symm, hij⟩)
  · exact Or.inl (Or.inl h)

instance (s : List ℚ) : IsTrans Nat (scoreRel s) := by
  constructor
  intro i j k hij hjk
  rcases hij with h1 | ⟨e1, l1⟩
  · rcases hjk with h2 | ⟨e2, _⟩
    · exact Or.inl (h2.trans h1)
    · exact Or.inl (e2 ▸ h1)
  · rcases hjk with h2 | ⟨e2, l2⟩
    · exact Or.inl (e1 ▸ h2)
    · exact Or.inr ⟨e1.trans e2, l1.trans l2⟩

/-- np.argsort(-scores): positions sorted by descending score. -/
def argsortDesc (s : List ℚ) : List Nat :=
  List.insertionSort (scoreRel s) (List.range s.length)

/-- Descending order on fused (index, score) pairs for heapq.nlargest. -/
def pairGe (a b : Nat × ℚ) : Prop := b.2 ≤ a.2

instance : DecidableRel pairGe := fun _ _ => by unfold pairGe; infer_instance

instance : IsTotal (Nat × ℚ) pairGe := ⟨fun a b => le_total b.2 a.2⟩

instance : IsTrans (Nat × ℚ) pairGe := ⟨fun _ _ _ h h2 => le_trans h2 h⟩

/-- heapq.nlargest(n, items, key=score): the n largest pairs by score. -/
def nlargest (n : Nat) (items : List (Nat × ℚ)) : List (Nat × ℚ) :=
  (List.insertionSort pairGe items).take n

/-- The rank-dict construction of MessageStore.search: setdefault plus
append into an insertion-ordered association list. -/
def addRank : List (Nat × List Nat) → Nat → Nat → List (Nat × List Nat)
  | [], i, r => [(i, [r])]
  | (j, ps) :: rest, i, r =>
    if i = j then (j, ps ++ [r]) :: rest else (j, ps) :: addRank rest i r

/-- Fold a ranked index list into the rank dict, ranks starting at pos. -/
def addRanks (ranks : List (Nat × List Nat)) : List Nat → Nat → List (Nat × List Nat)
  | [], _ => ranks
  | i :: rest, pos => addRanks (addRank ranks i pos) rest (pos + 1)

/-- Both enumerations of MessageStore.search, with rank r+1. -/
def buildRanks (bm em : List Nat) : List (Nat × List Nat) :=
  addRanks (addRanks [] bm 1) em 1

/-- retrieval._rrf: sum 1/(k + pos) over the positions recorded per doc. -/
def rrfOf (k : ℚ) (ranks : List (Nat × List Nat)) : List (Nat × ℚ) :=
  ranks.map (fun p => (p.1, (p.2.map (fun pos : Nat => 1 / (k + (pos : ℚ)))).sum))

/-! ### retrieval.py: recall, fusion and search -/

/-- BM25 scores: one score per corpus document, produced by the external
BM25Okapi scorer bmDoc (a function of the whole corpus, the tokenized query
and the document). -/
def bmGetScores (bmDoc : List (List String) → List String → List String → ℚ)
    (corpus : List (List String)) (qtok : List String) : List ℚ :=
  corpus.map (fun doc => bmDoc corpus qtok doc)

/-- retrieval.MessageStore._bm25_topn. -/
def bm25Topn (bmDoc : List (List String) → List String → List String → ℚ)
    (st : StoreData) (query : String) (N : Nat) : List Nat :=
  if st.hasBm25 then
    (argsortDesc (bmGetScores bmDoc st.bm25Corpus (tokenize query))).take N
  else []

/-- Normalized-embedding dot product. -/
def dotQ (a b : List ℚ) : ℚ :=
  (List.zipWith (fun x y => x * y) a b).sum

/-- The person-boost mask of MessageStore._embedding_topn: 1.15 for an exact
user_name match, 1.0 otherwise. -/
def boostMask (filter : String) (items : List Msg) : List ℚ :=
  items.map (fun it => if it.user_name == some filter then (23 : ℚ) / 20 else 1)

/-- Raw query-document similarities of MessageStore._embedding_topn. -/
def rawSims (embed : String → List ℚ) (st : StoreData) (query : String) : List ℚ :=
  st.embRows.map (fun row => dotQ row (embed query))

/-- Possibly boosted similarities (the user_name truthiness test of the
source makes an empty-string filter a no-op). -/
def boostedSims (embed : String → List ℚ) (st : StoreData) (query : String)
    (filter : Option String) : List ℚ :=
  let sims := rawSims embed st query
  match filter with
  | some u =>
    if !(u == "") && !sims.isEmpty then
      List.zipWith (fun x y => x * y) sims (boostMask u st.items)
    else sims
  | none => sims

/-- retrieval.MessageStore._embedding_topn. -/
def embeddingTopn (embed : String → List ℚ) (st : StoreData) (query : String)
    (filter : Option String) (N : Nat) : List Nat :=
  let sims := boostedSims embed st query filter
  if sims.isEmpty then [] else (argsortDesc sims).take N

/-- The fused scores built by MessageStore.search from the two recall lists. -/
def rrfScoresOf (bm em : List Nat) : List (Nat × ℚ) :=
  rrfOf 60 (buildRanks bm em)

/-- The candidate pool handed to the reranker: indices of the 60 largest
fused scores. -/
def searchCandidates (bm em : List Nat) : List Nat :=
  (nlargest 60 (rrfScoresOf bm em)).map Prod.fst

/-- A default message for the (never reached) out-of-range list accesses. -/
def defaultMsg : Msg := { user_name := none, timestamp := "", message := "" }

/-- The per-query output record of MessageStore.search. -/
structure Snippet where
  user_name : Option String
  timestamp : String
  message : String
  score : ℚ
deriving DecidableEq

/-- retrieval.MessageStore.search on a given snapshot: recall, fusion,
cross-encoder rerank (oracle ce on (query, composed text) pairs), top_k cut. -/
def searchData (embed : String → List ℚ)
    (bmDoc : List (List String) → List String → List String → ℚ)
    (ce : String → String → ℚ) (st : StoreData) (query : String)
    (filter : Option String) (topK : Nat) : List Snippet :=
  let bmIdx := bm25Topn bmDoc st query 100
  let emIdx := embeddingTopn embed st query filter 100
  let candIdx := searchCandidates bmIdx emIdx
  if candIdx.isEmpty then []
  else
    let ceScores := candIdx.map (fun i => ce query (st.texts.getD i ""))
    let order := (argsortDesc ceScores).take topK
    order.map (fun j =>
      let it := st.items.getD (candIdx.getD j 0) defaultMsg
      { user_name := it.user_name, timestamp := it.timestamp,
        message := it.message, score := ceScores.getD j 0 })

/-! ### retrieval.py: store lifecycle -/

/-- The store state the freshness logic observes: whether models are loaded,
the current snapshot if any (None embeddings at process start), and whether
the snapshot age exceeds the refresh interval. -/
structure StoreState where
  modelsReady : Bool
  data : Option StoreData
  stale : Bool

/-- retrieval.MessageStore.ensure_fresh: load the models, then refetch when
no snapshot exists or it is stale.  The payload is the item list a
successful _safe_fetch_messages returns. -/
def ensureFresh (embedOne : String → List ℚ) (payload : List Msg)
    (st : StoreState) : StoreState :=
  let st1 : StoreState := { st with modelsReady := true }
  if st1.data.isNone || st1.stale then
    { modelsReady := true, data := some (fetchBuild embedOne payload), stale := false }
  else st1

/-- The snapshot in effect after ensure_fresh (the default is never reached:
ensure_fresh always leaves a snapshot in place). -/
def refreshedData (embed : String → List ℚ) (payload : List Msg)
    (st : StoreState) : StoreData :=
  (ensureFresh embed payload st).data.getD (fetchBuild embed [])

/-- retrieval.MessageStore.search including its leading ensure_fresh call. -/
def searchFull (embed : String → List ℚ)
    (bmDoc : List (List String) → List String → List String → ℚ)
    (ce : String → String → ℚ) (payload : List Msg) (st : StoreState)
    (query : String) (filter : Option String) (topK : Nat) : List Snippet :=
  searchData embed bmDoc ce (refreshedData embed payload st) query filter topK

/-- Value of a key in the rank dict (Python dict lookup; absent keys never
queried have the empty history). -/
def lookupRanks (i : Nat) : List (Nat × List Nat) → List Nat
  | [] => []
  | (j, ps) :: rest => if i = j then ps else lookupRanks i rest

/-- Value of a key in the fused-score dict, defaulting to zero. -/
def lookupScore (i : Nat) : List (Nat × ℚ) → ℚ
  | [] => 0
  | (j, s) :: rest => if i = j then s else lookupScore i rest

/-- Index-alignment well-formedness of a snapshot, as _fetch establishes it. -/
def StoreWF (d : StoreData) : Prop :=
  d.texts.length = d.items.length ∧ d.embRows.length = d.items.length ∧
  d.bm25Corpus.length = d.items.length

/-! ### main.py: the /ask gate pipeline -/

/-- Machine-readable tags of the four refusal answers of main.ask, in the
order the gates run. -/
def focusReason : String := "no message with focus terms"

/-- Tag of the temporal-gate refusal. -/
def whenReason : String := "type guard when"

/-- Tag of the quantity-gate refusal. -/
def qtyReason : String := "type guard how many/much"

/-- Tag of the empty-evidence refusal. -/
def noEvidenceReason : String := "no evidence at all"

/-- Outcome of the gate pipeline: a refusal answer with its reason tag, or
permission to synthesize from the retrieved snippets. -/
inductive GateOutcome where
  | refuse (reason : String)
  | allow
deriving DecidableEq

/-- The per-snippet focus check of main.ask: same user when a person was
detected, and some focus term occurs in the composed snippet text. -/
def hasFocusInSameSnippet (name : Option String) (focus : List String)
    (s : Snippet) : Bool :=
  let text := lcList (userStr s.user_name ++ " " ++ s.timestamp ++ " " ++ s.message)
  (match name with
   | none => true
   | some n => s.user_name == some n) &&
  focus.any (fun f => subIn f.data text)

/-- The evidence gates of main.ask, evaluated in source order on the already
normalized question: focus-term gate, temporal gate, quantity gate,
non-empty gate. -/
def askGates (q : String) (name : Option String) (snippets : List Snippet) :
    GateOutcome :=
  let low := lcList q
  let focus := extractFocusTerms q name
  if !focus.isEmpty && !(snippets.any (hasFocusInSameSnippet name focus)) then
    .refuse focusReason
  else if subIn "when".data low && !(snippets.any (fun s => hasDateish s.message)) then
    .refuse whenReason
  else if (subIn "how many".data low || subIn "how much".data low) &&
      !hasQuantityish (String.intercalate " " (snippets.map (fun s => s.message))) then
    .refuse qtyReason
  else if snippets.isEmpty then
    .refuse noEvidenceReason
  else .allow

/-- The body of main.ask after the store is obtained: normalize, refresh,
detect person and topic, search with top_k 10, then run the gates. -/
def askCore (extractOne : String → List String → Option (String × ℚ))
    (embed : String → List ℚ)
    (bmDoc : List (List String) → List String → List String → ℚ)
    (ce : String → String → ℚ) (payload : List Msg) (st : StoreState)
    (question : String) : GateOutcome :=
  let q := normalizeText question
  let st1 := ensureFresh embed payload st
  let d := st1.data.getD (fetchBuild embed [])
  let name := (extractCandidateName extractOne q d.userNames).1
  let topic := detectTopic q
  let query := if topic == "general" then q else q ++ " topic:" ++ topic
  let snippets := searchFull embed bmDoc ce payload st1 query name 10
  askGates q name snippets

/-! ### main.py: module attribute access of the store accessor -/

/-- The module-level names defined by app/retrieval.py (imports, constants,
functions, the MessageStore class and the store instance). -/
def retrievalModuleNames : List String :=
  ["os", "time", "threading", "requests", "np", "heapq", "re", "Optional",
   "SentenceTransformer", "CrossEncoder", "BM25Okapi",
   "MESSAGES_URL_BASE", "_PATHS", "_REFRESH_SEC", "_TIMEOUT", "_token_re",
   "_authed_get", "_get_messages_once", "_safe_fetch_messages",
   "_tokenize", "_rrf", "MessageStore", "store"]

/-- Outcome of a Python attribute access. -/
inductive PyOutcome (α : Type) where
  | ok (a : α)
  | attrError (msg : String)
deriving DecidableEq

/-- main.get_store resolves the attribute named get_store on the retrieval
module. -/
def retrievalGetStore : PyOutcome Unit :=
  if retrievalModuleNames.contains "get_store" then .ok ()
  else .attrError "module app.retrieval has no attribute get_store"

/-- The /ask endpoint: it first obtains the store via main.get_store, and
only then runs the retrieval-and-gating body. -/
def askEndpoint (extractOne : String → List String → Option (String × ℚ))
    (embed : String → List ℚ)
    (bmDoc : List (List String) → List String → List String → ℚ)
    (ce : String → String → ℚ) (payload : List Msg) (st : StoreState)
    (question : String) : PyOutcome GateOutcome :=
  match retrievalGetStore with
  | .attrError m => .attrError m
  | .ok _ => .ok (askCore extractOne embed bmDoc ce payload st question)

/-- The startup warm-up task also goes through main.get_store (inside a
try/except, so its failure is swallowed); true when the store access it
performs raises. -/
def startupWarmupFails : Bool :=
  match retrievalGetStore with
  | .attrError _ => true
  | .ok _ => false

/-! ### Concrete oracles, payloads and states used for witnesses and
counterexamples -/

/-- A name matcher that never matches (rapidfuzz on an empty name list). -/
def demoExtractOne : String → List String → Option (String × ℚ) := fun _ _ => none

/-- A one-dimensional embedder assigning every text the unit vector. -/
def demoEmbed : String → List ℚ := fun _ => [1]

/-- A BM25 scorer assigning every document score zero. -/
def demoBmDoc : List (List String) → List String → List String → ℚ := fun _ _ _ => 0

/-- A cross-encoder assigning every pair score zero. -/
def demoCe : String → String → ℚ := fun _ _ => 0

/-- The store state at process start: no models, no data. -/
def coldState : StoreState := { modelsReady := false, data := none, stale := false }

/-- Two-message corpus for the reranker-fallback analysis. -/
def payloadC1 : List Msg :=
  [{ user_name := some "Ana", timestamp := "t0", message := "m0" },
   { user_name := some "Bob", timestamp := "t1", message := "m1" }]

/-- Embedder giving message 0 the higher similarity. -/
def embedC1 : String → List ℚ := fun t => if t == "Ana | t0 | m0" then [2] else [1]

/-- BM25 scorer giving message 0 the higher lexical score. -/
def bmDocC1 : List (List String) → List String → List String → ℚ :=
  fun _ _ doc => if doc == ["ana", "t0", "m0"] then 2 else 1

/-- Cross-encoder preferring message 1, reversing the fused order. -/
def ceC1 : String → String → ℚ := fun _ t => if t == "Bob | t1 | m1" then 5 else 1

/-- Corpus whose first message belongs to Bob, second to Ana. -/
def payloadC7Bob : List Msg :=
  [{ user_name := some "Bob", timestamp := "t0", message := "m0" },
   { user_name := some "Ana", timestamp := "t1", message := "m1" }]

/-- The same corpus with a null user_name on the first message. -/
def payloadC7None : List Msg :=
  [{ user_name := none, timestamp := "t0", message := "m0" },
   { user_name := some "Ana", timestamp := "t1", message := "m1" }]

/-- Embedder for the person-boost analysis: similarity 10 for the first
message, 9 for the second, query vector the unit. -/
def embedC7 : String → List ℚ := fun t =>
  if t == "q" then [1]
  else if t == "Bob | t0 | m0" || t == "None | t0 | m0" then [10]
  else [9]

/-- Network oracle answering the first endpoint path with a bare 302 whose
body nevertheless parses. -/
def netC8 : String → Except String HttpResp := fun url =>
  if url == "https://base/messages" then
    Except.ok { status := 302, location := none, jsonItems := some [] }
  else Except.error "ConnectionError"

/-- One-message corpus for witnesses. -/
def payloadOne : List Msg :=
  [{ user_name := some "Ana", timestamp := "2025-11-10",
     message := "Ana booked a flight to London" }]

/-! ## General lemmas about the ranking primitives -/

theorem argsortDesc_perm (s : List ℚ) : List.Perm (argsortDesc s) (List.range s.length) :=
  List.perm_insertionSort _ _

theorem argsortDesc_mem {s : List ℚ} {i : Nat} : i ∈ argsortDesc s ↔ i < s.length := by
  rw [(argsortDesc_perm s).mem_iff, List.mem_range]

theorem argsortDesc_nodup (s : List ℚ) : (argsortDesc s).Nodup :=
  (argsortDesc_perm s).nodup_iff.mpr (List.nodup_range _)

theorem argsortDesc_length (s : List ℚ) : (argsortDesc s).length = s.length := by
  rw [(argsortDesc_perm s).length_eq, List.length_range]

theorem argsortDesc_pairwise (s : List ℚ) : (argsortDesc s).Pairwise (scoreRel s) :=
  List.sorted_insertionSort _ _

theorem scoreRel_le {s : List ℚ} {i j : Nat} (h : scoreRel s i j) :
    s.getD j 0 ≤ s.getD i 0 := by
  rcases h with h | ⟨h, _⟩
  · exact le_of_lt h
  · exact le_of_eq h.symm

theorem scoreRel_antisymm {s : List ℚ} {i j : Nat} (h1 : scoreRel s i j)
    (h2 : scoreRel s j i) : i = j := by
  rcases h1 with h1 | ⟨e1, l1⟩ <;> rcases h2 with h2 | ⟨e2, l2⟩
  · exact absurd (h1.trans h2) (lt_irrefl _)
  · exact absurd (e2 ▸ h1) (lt_irrefl _)
  · exact absurd (e1 ▸ h2) (lt_irrefl _)
  · exact Nat.le_antisymm l1 l2

theorem nodup_lt_length_le {l : List Nat} {N : Nat} (hn : l.Nodup)
    (hb : ∀ x ∈ l, x < N) : l.length ≤ N := by
  classical
  calc l.length = l.toFinset.card := (List.toFinset_card_of_nodup hn).symm
    _ ≤ (Finset.range N).card := by
        apply Finset.card_le_card
        intro x hx
        exact Finset.mem_range.mpr (hb x (List.mem_toFinset.mp hx))
    _ = N := Finset.card_range N

/-! ## Lemmas about the rank dict and fused scores -/

theorem lookupRanks_addRank_self (ranks : List (Nat × List Nat)) (i r : Nat) :
    lookupRanks i (addRank ranks i r) = lookupRanks i ranks ++ [r] := by
  induction ranks with
  | nil => simp [addRank, lookupRanks]
  | cons hd tl ih =>
    obtain ⟨j, ps⟩ := hd
    by_cases h : i = j
    · subst h; simp [addRank, lookupRanks]
    · simp [addRank, lookupRanks, h, Ne.symm h, ih]

theorem lookupRanks_addRank_ne (ranks : List (Nat × List Nat)) (i r j : Nat)
    (h : j ≠ i) : lookupRanks j (addRank ranks i r) = lookupRanks j ranks := by
  induction ranks with
  | nil => simp [addRank, lookupRanks, h]
  | cons hd tl ih =>
    obtain ⟨a, ps⟩ := hd
    by_cases ha : i = a
    · subst ha; simp [addRank, lookupRanks, h]
    · by_cases hja : j = a
      · subst hja; simp [addRank, lookupRanks, ha, Ne.symm ha]
      · simp [addRank, lookupRanks, ha, hja, ih]

theorem mem_keys_addRank (ranks : List (Nat × List Nat)) (i r j : Nat) :
    j ∈ (addRank ranks i r).map Prod.fst ↔ j ∈ ranks.map Prod.fst ∨ j = i := by
  induction ranks with
  | nil => simp [addRank]
  | cons hd tl ih =>
    obtain ⟨a, ps⟩ := hd
    by_cases ha : i = a
    · subst ha; simp [addRank]; tauto
    · simp [addRank, ha, ih]; tauto

theorem keys_addRank_nodup (ranks : List (Nat × List Nat)) (i r : Nat)
    (h : (ranks.map Prod.fst).Nodup) : ((addRank ranks i r).map Prod.fst).Nodup := by
  induction ranks with
  | nil => simp [addRank]
  | cons hd tl ih =>
    obtain ⟨a, ps⟩ := hd
    simp only [List.map_cons, List.nodup_cons] at h
    by_cases ha : i = a
    · subst ha; simpa [addRank] using h
    · simp only [addRank, ha, if_false, List.map_cons, List.nodup_cons]
      refine ⟨fun hc => ?_, ih h.2⟩
      rcases (mem_keys_addRank tl i r a).mp hc with hc | hc
      · exact h.1 hc
      · exact ha hc.symm

theorem lookupRanks_addRanks (l : List Nat) :
    ∀ (ranks : List (Nat × List Nat)) (p : Nat), l.Nodup → ∀ j,
    lookupRanks j (addRanks ranks l p) =
      lookupRanks j ranks ++ (if j ∈ l then [p + l.indexOf j] else []) := by
  induction l with
  | nil => intro ranks p _ j; simp [addRanks]
  | cons i rest ih =>
    intro ranks p hnd j
    simp only [List.nodup_cons] at hnd
    by_cases h : j = i
    · subst h
      rw [addRanks, ih _ _ hnd.2 j, lookupRanks_addRank_self]
      simp [hnd.1, List.indexOf_cons_self]
    · rw [addRanks, ih _ _ hnd.2 j, lookupRanks_addRank_ne _ _ _ _ h]
      by_cases hj : j ∈ rest
      · simp only [List.mem_cons, hj, or_true, if_true, h]
        rw [List.indexOf_cons_ne _ (fun hc => h hc.symm)]
        have heq : p + 1 + List.indexOf j rest = p + (List.indexOf j rest).succ := by omega
        rw [heq]
      · simp [h, hj]

theorem mem_keys_addRanks (l : List Nat) :
    ∀ (ranks : List (Nat × List Nat)) (p : Nat) (j : Nat),
    j ∈ (addRanks ranks l p).map Prod.fst ↔ j ∈ ranks.map Prod.fst ∨ j ∈ l := by
  induction l with
  | nil => intro ranks p j; simp [addRanks]
  | cons i rest ih =>
    intro ranks p j
    rw [addRanks, ih, mem_keys_addRank]
    simp; tauto

theorem keys_addRanks_nodup (l : List Nat) :
    ∀ (ranks : List (Nat × List Nat)) (p : Nat),
    (ranks.map Prod.fst).Nodup → ((addRanks ranks l p).map Prod.fst).Nodup := by
  induction l with
  | nil => intro ranks p h; simpa [addRanks] using h
  | cons i rest ih =>
    intro ranks p h
    rw [addRanks]
    exact ih _ _ (keys_addRank_nodup _ _ _ h)

theorem lookupRanks_buildRanks (bm em : List Nat) (hb : bm.Nodup) (he : em.Nodup)
    (j : Nat) :
    lookupRanks j (buildRanks bm em) =
      (if j ∈ bm then [1 + bm.indexOf j] else []) ++
      (if j ∈ em then [1 + em.indexOf j] else []) := by
  rw [buildRanks, lookupRanks_addRanks em _ _ he, lookupRanks_addRanks bm _ _ hb]
  simp [lookupRanks]

theorem mem_keys_buildRanks (bm em : List Nat) (j : Nat) :
    j ∈ (buildRanks bm em).map Prod.fst ↔ j ∈ bm ∨ j ∈ em := by
  rw [buildRanks, mem_keys_addRanks, mem_keys_addRanks]
  simp

theorem keys_buildRanks_nodup (bm em : List Nat) :
    ((buildRanks bm em).map Prod.fst).Nodup := by
  exact keys_addRanks_nodup em _ _ (keys_addRanks_nodup bm _ _ (by simp))

theorem keys_rrfOf (k : ℚ) (ranks : List (Nat × List Nat)) :
    (rrfOf k ranks).map Prod.fst = ranks.map Prod.fst := by
  simp [rrfOf, List.map_map, Function.comp]

theorem lookupScore_rrfOf (k : ℚ) (ranks : List (Nat × List Nat)) (j : Nat) :
    lookupScore j (rrfOf k ranks) =
      ((lookupRanks j ranks).map (fun pos : Nat => 1 / (k + (pos : ℚ)))).sum := by
  induction ranks with
  | nil => simp [rrfOf, lookupScore, lookupRanks]
  | cons hd tl ih =>
    obtain ⟨a, ps⟩ := hd
    have hcons : rrfOf k ((a, ps) :: tl) =
        (a, (ps.map (fun pos : Nat => 1 / (k + (pos : ℚ)))).sum) :: rrfOf k tl := rfl
    rw [hcons]
    by_cases h : j = a
    · subst h
      rw [lookupScore, lookupRanks, if_pos rfl, if_pos rfl]
    · rw [lookupScore, lookupRanks, if_neg h, if_neg h, ih]

/-! ## Lemmas about nlargest -/

theorem nlargest_length (n : Nat) (items : List (Nat × ℚ)) :
    (nlargest n items).length = min n items.length := by
  simp [nlargest, List.length_take, (List.perm_insertionSort pairGe items).length_eq]

theorem nlargest_subset {n : Nat} {items : List (Nat × ℚ)} :
    ∀ p ∈ nlargest n items, p ∈ items := by
  intro p hp
  have h1 : p ∈ List.insertionSort pairGe items :=
    (List.take_sublist _ _).mem hp
  exact (List.perm_insertionSort pairGe items).mem_iff.mp h1

theorem nlargest_dominates {n : Nat} {items : List (Nat × ℚ)} {p q : Nat × ℚ}
    (hp : p ∈ nlargest n items) (hq : q ∈ items)
    (hq2 : q.1 ∉ (nlargest n items).map Prod.fst) : q.2 ≤ p.2 := by
  have hsorted : (List.insertionSort pairGe items).Pairwise pairGe :=
    List.sorted_insertionSort _ _
  have hsplit : List.insertionSort pairGe items =
      (List.insertionSort pairGe items).take n ++ (List.insertionSort pairGe items).drop n :=
    (List.take_append_drop _ _).symm
  have hq3 : q ∈ List.insertionSort pairGe items :=
    (List.perm_insertionSort pairGe items).mem_iff.mpr hq
  rw [hsplit] at hq3
  rcases List.mem_append.mp hq3 with hq4 | hq4
  · exact absurd (List.mem_map_of_mem Prod.fst hq4) hq2
  · rw [hsplit] at hsorted
    exact (List.pairwise_append.mp hsorted).2.2 p hp q hq4

/-! ## Bounds on the recall lists and the candidate pool -/

theorem bmGetScores_length (bmDoc : List (List String) → List String → List String → ℚ)
    (corpus : List (List String)) (qtok : List String) :
    (bmGetScores bmDoc corpus qtok).length = corpus.length := by
  simp [bmGetScores]

theorem bm25Topn_mem {bmDoc : List (List String) → List String → List String → ℚ}
    {st : StoreData} {query : String} {N i : Nat}
    (hi : i ∈ bm25Topn bmDoc st query N) : i < st.bm25Corpus.length := by
  rw [bm25Topn] at hi
  by_cases h : st.hasBm25
  · rw [if_pos h] at hi
    have := argsortDesc_mem.mp ((List.take_sublist _ _).mem hi)
    rwa [bmGetScores_length] at this
  · rw [if_neg h] at hi
    exact absurd hi (List.not_mem_nil i)

theorem rawSims_length (embed : String → List ℚ) (st : StoreData) (query : String) :
    (rawSims embed st query).length = st.embRows.length := by
  simp [rawSims]

theorem boostedSims_length_le (embed : String → List ℚ) (st : StoreData)
    (query : String) (filter : Option String) :
    (boostedSims embed st query filter).length ≤ st.embRows.length := by
  cases filter with
  | none => simp [boostedSims, rawSims]
  | some u =>
    simp only [boostedSims]
    by_cases h : (!(u == "") && !(rawSims embed st query).isEmpty) = true
    · rw [if_pos h, List.length_zipWith, rawSims_length]
      exact min_le_left _ _
    · rw [if_neg h, rawSims_length]

theorem embeddingTopn_mem {embed : String → List ℚ} {st : StoreData}
    {query : String} {filter : Option String} {N i : Nat}
    (hi : i ∈ embeddingTopn embed st query filter N) : i < st.embRows.length := by
  rw [embeddingTopn] at hi
  by_cases h : (boostedSims embed st query filter).isEmpty
  · rw [if_pos h] at hi
    exact absurd hi (List.not_mem_nil i)
  · rw [if_neg h] at hi
    have := argsortDesc_mem.mp ((List.take_sublist _ _).mem hi)
    exact lt_of_lt_of_le this (boostedSims_length_le _ _ _ _)

theorem searchCandidates_mem {bm em : List Nat} {i : Nat}
    (hi : i ∈ searchCandidates bm em) : i ∈ bm ∨ i ∈ em := by
  rw [searchCandidates] at hi
  obtain ⟨p, hp, hpi⟩ := List.mem_map.mp hi
  have hps : p ∈ rrfScoresOf bm em := nlargest_subset p hp
  have hkeys : i ∈ (rrfScoresOf bm em).map Prod.fst := by
    exact hpi ▸ List.mem_map_of_mem Prod.fst hps
  rw [rrfScoresOf, keys_rrfOf] at hkeys
  exact (mem_keys_buildRanks bm em i).mp hkeys

theorem rrfScoresOf_length (bm em : List Nat) :
    (rrfScoresOf bm em).length = ((buildRanks bm em).map Prod.fst).length := by
  simp [rrfScoresOf, rrfOf]

theorem searchCandidates_length_le {bm em : List Nat} {N : Nat}
    (hbm : ∀ i ∈ bm, i < N) (hem : ∀ i ∈ em, i < N) :
    (searchCandidates bm em).length ≤ N := by
  rw [searchCandidates, List.length_map]
  have h1 : (nlargest 60 (rrfScoresOf bm em)).length ≤ (rrfScoresOf bm em).length := by
    rw [nlargest_length]; exact min_le_right _ _
  have h2 : ((buildRanks bm em).map Prod.fst).length ≤ N := by
    apply nodup_lt_length_le (keys_buildRanks_nodup bm em)
    intro x hx
    rcases (mem_keys_buildRanks bm em x).mp hx with h | h
    · exact hbm x h
    · exact hem x h
  exact le_trans h1 (le_trans (le_of_eq (rrfScoresOf_length bm em)) h2)

/-! ## Structural facts about searchData -/

theorem searchData_length_le_topK (embed : String → List ℚ)
    (bmDoc : List (List String) → List String → List String → ℚ)
    (ce : String → String → ℚ) (d : StoreData) (query : String)
    (filter : Option String) (topK : Nat) :
    (searchData embed bmDoc ce d query filter topK).length ≤ topK := by
  simp only [searchData]
  by_cases h : (searchCandidates (bm25Topn bmDoc d query 100)
      (embeddingTopn embed d query filter 100)).isEmpty
  · rw [if_pos h]; simp
  · rw [if_neg h, List.length_map, List.length_take]
    exact min_le_left _ _

theorem searchData_length_le_items (embed : String → List ℚ)
    (bmDoc : List (List String) → List String → List String → ℚ)
    (ce : String → String → ℚ) (d : StoreData) (query : String)
    (filter : Option String) (topK : Nat) (hwf : StoreWF d) :
    (searchData embed bmDoc ce d query filter topK).length ≤ d.items.length := by
  obtain ⟨htx, hem, hbm⟩ := hwf
  simp only [searchData]
  by_cases h : (searchCandidates (bm25Topn bmDoc d query 100)
      (embeddingTopn embed d query filter 100)).isEmpty
  · rw [if_pos h]; simp
  · rw [if_neg h, List.length_map, List.length_take]
    have hc : (searchCandidates (bm25Topn bmDoc d query 100)
        (embeddingTopn embed d query filter 100)).length ≤ d.items.length := by
      apply searchCandidates_length_le
      · intro i hi; exact hbm ▸ bm25Topn_mem hi
      · intro i hi; exact hem ▸ embeddingTopn_mem hi
    rw [argsortDesc_length, List.length_map]
    exact le_trans (min_le_right _ _) hc

theorem searchData_mem {embed : String → List ℚ}
    {bmDoc : List (List String) → List String → List String → ℚ}
    {ce : String → String → ℚ} {d : StoreData} {query : String}
    {filter : Option String} {topK : Nat} (hwf : StoreWF d)
    {r : Snippet} (hr : r ∈ searchData embed bmDoc ce d query filter topK) :
    ∃ i, i < d.items.length
      ∧ (d.items.getD i defaultMsg).user_name = r.user_name
      ∧ (d.items.getD i defaultMsg).timestamp = r.timestamp
      ∧ (d.items.getD i defaultMsg).message = r.message
      ∧ r.score = ce query (d.texts.getD i "") := by
  obtain ⟨htx, hem, hbm⟩ := hwf
  simp only [searchData] at hr
  by_cases h : (searchCandidates (bm25Topn bmDoc d query 100)
      (embeddingTopn embed d query filter 100)).isEmpty
  · rw [if_pos h] at hr
    exact absurd hr (List.not_mem_nil r)
  · rw [if_neg h] at hr
    obtain ⟨j, hj, hjr⟩ := List.mem_map.mp hr
    have hj2 : j ∈ argsortDesc ((searchCandidates (bm25Topn bmDoc d query 100)
        (embeddingTopn embed d query filter 100)).map
          (fun i => ce query (d.texts.getD i ""))) :=
      (List.take_sublist _ _).mem hj
    have hjlt : j < (searchCandidates (bm25Topn bmDoc d query 100)
        (embeddingTopn embed d query filter 100)).length := by
      have := argsortDesc_mem.mp hj2
      rwa [List.length_map] at this
    refine ⟨(searchCandidates (bm25Topn bmDoc d query 100)
      (embeddingTopn embed d query filter 100)).getD j 0, ?_, ?_, ?_, ?_, ?_⟩
    · have hmem : (searchCandidates (bm25Topn bmDoc d query 100)
          (embeddingTopn embed d query filter 100)).getD j 0 ∈
          searchCandidates (bm25Topn bmDoc d query 100)
            (embeddingTopn embed d query filter 100) := by
        rw [List.getD_eq_getElem _ _ hjlt]
        exact List.getElem_mem _
      rcases searchCandidates_mem hmem with hc | hc
      · exact hbm ▸ bm25Topn_mem hc
      · exact hem ▸ embeddingTopn_mem hc
    · rw [← hjr]
    · rw [← hjr]
    · rw [← hjr]
    · rw [← hjr]
      show ((searchCandidates (bm25Topn bmDoc d query 100)
          (embeddingTopn embed d query filter 100)).map
            (fun i => ce query (d.texts.getD i ""))).getD j 0 =
        ce query (d.texts.getD ((searchCandidates (bm25Topn bmDoc d query 100)
          (embeddingTopn embed d query filter 100)).getD j 0) "")
      rw [List.getD_eq_getElem _ _ (by rwa [List.length_map]),
        List.getElem_map, List.getD_eq_getElem _ _ hjlt]

theorem searchData_pairwise (embed : String → List ℚ)
    (bmDoc : List (List String) → List String → List String → ℚ)
    (ce : String → String → ℚ) (d : StoreData) (query : String)
    (filter : Option String) (topK : Nat) :
    (searchData embed bmDoc ce d query filter topK).Pairwise
      (fun a b : Snippet => b.score ≤ a.score) := by
  simp only [searchData]
  by_cases h : (searchCandidates (bm25Topn bmDoc d query 100)
      (embeddingTopn embed d query filter 100)).isEmpty
  · rw [if_pos h]; simp
  · rw [if_neg h]
    apply List.Pairwise.map
    · intro i j hrel
      exact scoreRel_le hrel
    · exact (argsortDesc_pairwise _).sublist (List.take_sublist _ _)

theorem searchData_of_items_nil (embed : String → List ℚ)
    (bmDoc : List (List String) → List String → List String → ℚ)
    (ce : String → String → ℚ) (d : StoreData) (query : String)
    (filter : Option String) (topK : Nat) (hwf : StoreWF d)
    (hnil : d.items = []) :
    searchData embed bmDoc ce d query filter topK = [] := by
  obtain ⟨htx, hem, hbm⟩ := hwf
  rw [hnil] at hem hbm
  simp only [List.length_nil] at hem hbm
  have hbmidx : bm25Topn bmDoc d query 100 = [] := by
    rcases h : bm25Topn bmDoc d query 100 with _ | ⟨i, rest⟩
    · rfl
    · have : i ∈ bm25Topn bmDoc d query 100 := h ▸ List.mem_cons_self i rest
      have := bm25Topn_mem this
      omega
  have hemidx : embeddingTopn embed d query filter 100 = [] := by
    rcases h : embeddingTopn embed d query filter 100 with _ | ⟨i, rest⟩
    · rfl
    · have : i ∈ embeddingTopn embed d query filter 100 := h ▸ List.mem_cons_self i rest
      have := embeddingTopn_mem this
      omega
  simp only [searchData, hbmidx, hemidx]
  rw [if_pos]
  rfl

/-! ## Well-formedness of built snapshots -/

theorem fetchBuild_wf (embedOne : String → List ℚ) (items : List Msg) :
    StoreWF (fetchBuild embedOne items) := by
  refine ⟨by simp [fetchBuild], ?_, by simp [fetchBuild]⟩
  simp only [fetchBuild]
  by_cases h : (items.map composeText).isEmpty
  · rw [if_pos h]
    simp only [List.isEmpty_iff, List.map_eq_nil_iff] at h
    simp [h]
  · rw [if_neg h]; simp

theorem ensureFresh_refetch (embedOne : String → List ℚ) (payload : List Msg)
    (st : StoreState) (h : st.data = none ∨ st.stale = true) :
    ensureFresh embedOne payload st =
      { modelsReady := true, data := some (fetchBuild embedOne payload),
        stale := false } := by
  rw [ensureFresh]
  have : (({ st with modelsReady := true } : StoreState).data.isNone ||
      ({ st with modelsReady := true } : StoreState).stale) = true := by
    rcases h with h | h <;> simp [h]
  rw [if_pos this]

theorem refreshedData_wf (embed : String → List ℚ) (payload : List Msg)
    (st : StoreState) (hst : ∀ dd, st.data = some dd → StoreWF dd) :
    StoreWF (refreshedData embed payload st) := by
  rw [refreshedData, ensureFresh]
  by_cases h : (({ st with modelsReady := true } : StoreState).data.isNone ||
      ({ st with modelsReady := true } : StoreState).stale) = true
  · rw [if_pos h]
    exact fetchBuild_wf embed payload
  · rw [if_neg h]
    simp only [Bool.or_eq_true, Option.isNone_iff_eq_none, not_or] at h
    rcases hd : st.data with _ | dd
    · exact absurd (by simpa using hd) h.1
    · exact hst dd hd

theorem refreshedData_of_refetch (embed : String → List ℚ) (payload : List Msg)
    (st : StoreState) (h : st.data = none ∨ st.stale = true) :
    refreshedData embed payload st = fetchBuild embed payload := by
  rw [refreshedData, ensureFresh_refetch embed payload st h]
  rfl

/-! ## Claim C2: the /ask endpoint dies on retrieval.get_store -/

/-- C2: every call of the /ask endpoint (and the startup warm-up task) fails
with an AttributeError before any retrieval or gating runs, because
main.get_store calls retrieval.get_store while the retrieval module defines
no such name — it only exposes the module-level instance named store. -/
theorem c2_ask_endpoint_attribute_error
    (extractOne : String → List String → Option (String × ℚ))
    (embed : String → List ℚ)
    (bmDoc : List (List String) → List String → List String → ℚ)
    (ce : String → String → ℚ) (payload : List Msg) (st : StoreState)
    (question : String) :
    askEndpoint extractOne embed bmDoc ce payload st question =
      PyOutcome.attrError "module app.retrieval has no attribute get_store"
    ∧ retrievalModuleNames.contains "get_store" = false
    ∧ retrievalModuleNames.contains "store" = true
    ∧ startupWarmupFails = true := by
  refine ⟨?_, by decide, by decide, by decide⟩
  rw [askEndpoint]
  have h : retrievalGetStore =
      PyOutcome.attrError "module app.retrieval has no attribute get_store" := by decide
  rw [h]

/-! ## Claim C10: quantity detector semantics -/

/-- C10: the quantity detector matches spelled-out number words by plain
substring containment (so a number word inside a longer word, as in anyone
or often, satisfies the gate), while a digit run embedded in an
alphanumeric token such as A380 fails the word-boundary digit check and the
whole detector. -/
theorem c10_quantityish_substring_and_boundaries :
    (∀ (t w : String), w ∈ numberWords → subIn w.data (lcList t) = true →
      hasQuantityish t = true)
    ∧ hasQuantityish "anyone" = true
    ∧ hasQuantityish "often" = true
    ∧ hasBoundedDigitRun (lcList "A380") = false
    ∧ hasQuantityish "A380" = false := by
  refine ⟨?_, by decide, by decide, by decide, by decide⟩
  intro t w hw hsub
  have hany : numberWords.any (fun w => subIn w.data (lcList t)) = true :=
    List.any_eq_true.mpr ⟨w, hw, hsub⟩
  rw [hasQuantityish]
  simp only [hany, Bool.or_true]

/-- Witness for C10 at a concrete input: often contains the number word ten. -/
theorem c10_witness : hasQuantityish "often" = true :=
  c10_quantityish_substring_and_boundaries.1 "often" "ten" (by decide) (by decide)

/-! ## Claim C4: the temporal gate -/

/-- C4 (amended): whenever the question contains the substring when, no
candidate message is date-like, and the focus-term gate does not fire first
(no focus terms, or some candidate carries one), the gate pipeline refuses
with the type-guard-when reason, regardless of candidate count. -/
theorem c4_when_gate_refusal (q : String) (name : Option String)
    (snippets : List Snippet)
    (hwhen : subIn "when".data (lcList q) = true)
    (hnod : ∀ s ∈ snippets, hasDateish s.message = false)
    (hfocus : extractFocusTerms q name = [] ∨
      ∃ s ∈ snippets, hasFocusInSameSnippet name (extractFocusTerms q name) s = true) :
    askGates q name snippets = GateOutcome.refuse whenReason := by
  have hfirst : (!(extractFocusTerms q name).isEmpty &&
      !(snippets.any (hasFocusInSameSnippet name (extractFocusTerms q name)))) = false := by
    rcases hfocus with h | ⟨s, hs, hf⟩
    · simp [h]
    · have h2 : snippets.any (hasFocusInSameSnippet name (extractFocusTerms q name)) = true :=
        List.any_eq_true.mpr ⟨s, hs, hf⟩
      simp [h2]
  have hdate : (snippets.any fun s => hasDateish s.message) = false := by
    rw [List.any_eq_false]
    intro s hs
    simp [hnod s hs]
  simp only [askGates, hfirst, hdate, hwhen]
  simp

/-- Witness for C4 at a concrete input: a bare when-question with no
candidates refuses with the temporal-gate reason. -/
theorem c4_witness : askGates "when is it" none [] = GateOutcome.refuse whenReason :=
  c4_when_gate_refusal "when is it" none []
    (by decide) (by intro s hs; exact absurd hs (List.not_mem_nil s)) (Or.inl (by decide))

/-- Counterexample to C4 as stated: with a focus-term-bearing question the
focus gate fires first, so a when-question with zero date-like candidate
tokens is refused with the focus reason, not the type-guard-when reason. -/
theorem c4_counterexample :
    subIn "when".data
      (lcList "when is london") = true
    ∧ hasDateish "hello" = false
    ∧ askGates "when is london" none
        [{ user_name := some "Bob", timestamp := "x", message := "hello", score := 0 }] =
        GateOutcome.refuse focusReason
    ∧ focusReason ≠ whenReason := by
  refine ⟨by decide, by decide, ?_, by decide⟩
  decide

/-! ## Claim C6: search output bounds -/

/-- C6: for every corpus, query, person filter and top_k, search returns at
most top_k candidates, every returned triple is a message of the current
snapshot, a corpus smaller than top_k yields fewer results without padding
(never more results than messages), and an empty corpus yields the empty
result. -/
theorem c6_search_bounds
    (embed : String → List ℚ)
    (bmDoc : List (List String) → List String → List String → ℚ)
    (ce : String → String → ℚ) (payload : List Msg) (st : StoreState)
    (query : String) (filter : Option String) (topK : Nat)
    (hst : ∀ dd, st.data = some dd → StoreWF dd) :
    (searchFull embed bmDoc ce payload st query filter topK).length ≤ topK
    ∧ (searchFull embed bmDoc ce payload st query filter topK).length ≤
        (refreshedData embed payload st).items.length
    ∧ (∀ r ∈ searchFull embed bmDoc ce payload st query filter topK,
        ∃ i, i < (refreshedData embed payload st).items.length
          ∧ ((refreshedData embed payload st).items.getD i defaultMsg).user_name = r.user_name
          ∧ ((refreshedData embed payload st).items.getD i defaultMsg).timestamp = r.timestamp
          ∧ ((refreshedData embed payload st).items.getD i defaultMsg).message = r.message)
    ∧ ((refreshedData embed payload st).items = [] →
        searchFull embed bmDoc ce payload st query filter topK = []) := by
  have hwf := refreshedData_wf embed payload st hst
  rw [searchFull]
  refine ⟨searchData_length_le_topK _ _ _ _ _ _ _,
    searchData_length_le_items _ _ _ _ _ _ _ hwf, ?_,
    searchData_of_items_nil _ _ _ _ _ _ _ hwf⟩
  intro r hr
  obtain ⟨i, hi, h1, h2, h3, _⟩ := searchData_mem hwf hr
  exact ⟨i, hi, h1, h2, h3⟩

/-- Witness for C6 at a concrete instance: one-message corpus, cold store. -/
theorem c6_witness :
    (∀ dd, coldState.data = some dd → StoreWF dd)
    ∧ ((searchFull demoEmbed demoBmDoc demoCe payloadOne coldState "q" none 10).length ≤ 10
      ∧ (searchFull demoEmbed demoBmDoc demoCe payloadOne coldState "q" none 10).length ≤
          (refreshedData demoEmbed payloadOne coldState).items.length
      ∧ (∀ r ∈ searchFull demoEmbed demoBmDoc demoCe payloadOne coldState "q" none 10,
          ∃ i, i < (refreshedData demoEmbed payloadOne coldState).items.length
            ∧ ((refreshedData demoEmbed payloadOne coldState).items.getD i defaultMsg).user_name = r.user_name
            ∧ ((refreshedData demoEmbed payloadOne coldState).items.getD i defaultMsg).timestamp = r.timestamp
            ∧ ((refreshedData demoEmbed payloadOne coldState).items.getD i defaultMsg).message = r.message)
      ∧ ((refreshedData demoEmbed payloadOne coldState).items = [] →
          searchFull demoEmbed demoBmDoc demoCe payloadOne coldState "q" none 10 = [])) :=
  ⟨fun dd h => by simp [coldState] at h,
   c6_search_bounds demoEmbed demoBmDoc demoCe payloadOne coldState "q" none 10
     (fun dd h => by simp [coldState] at h)⟩

/-! ## Claim C5: reciprocal rank fusion and the candidate pool -/

/-- C5: for every message index, the fused score equals the sum, over the
recall lists containing it, of 1/(60 + rank) with rank starting at 1 within
each list (absent lists contributing 0); and the candidate pool passed to
reranking consists of the indices of the 60 highest fused scores (all of
them when fewer exist), every pooled score dominating every unpooled one. -/
theorem c5_rrf_fusion (bm em : List Nat) (hb : bm.Nodup) (he : em.Nodup) :
    (∀ i, lookupScore i (rrfScoresOf bm em) =
      (if i ∈ bm then 1 / ((60 : ℚ) + ((1 + bm.indexOf i : Nat) : ℚ)) else 0)
      + (if i ∈ em then 1 / ((60 : ℚ) + ((1 + em.indexOf i : Nat) : ℚ)) else 0))
    ∧ (searchCandidates bm em).length = min 60 (rrfScoresOf bm em).length
    ∧ (∀ i ∈ searchCandidates bm em, ∃ s, (i, s) ∈ rrfScoresOf bm em ∧
        ∀ p ∈ rrfScoresOf bm em, p.1 ∉ searchCandidates bm em → p.2 ≤ s) := by
  refine ⟨?_, ?_, ?_⟩
  · intro i
    rw [rrfScoresOf, lookupScore_rrfOf, lookupRanks_buildRanks bm em hb he,
      List.map_append, List.sum_append]
    congr 1
    · by_cases h : i ∈ bm <;> simp [h]
    · by_cases h : i ∈ em <;> simp [h]
  · rw [searchCandidates, List.length_map, nlargest_length]
  · intro i hi
    rw [searchCandidates] at hi
    obtain ⟨p, hp, hpi⟩ := List.mem_map.mp hi
    refine ⟨p.2, ?_, ?_⟩
    · have hmem : p ∈ rrfScoresOf bm em := nlargest_subset p hp
      rw [← hpi]
      exact hmem
    · intro q hq hqout
      exact nlargest_dominates hp hq (by rwa [← searchCandidates])

/-- Witness for C5 at concrete recall lists. -/
theorem c5_witness :
    ([0, 2].Nodup ∧ [2, 1].Nodup)
    ∧ ((∀ i, lookupScore i (rrfScoresOf [0, 2] [2, 1]) =
        (if i ∈ [0, 2] then 1 / ((60 : ℚ) + ((1 + [0, 2].indexOf i : Nat) : ℚ)) else 0)
        + (if i ∈ [2, 1] then 1 / ((60 : ℚ) + ((1 + [2, 1].indexOf i : Nat) : ℚ)) else 0))
      ∧ (searchCandidates [0, 2] [2, 1]).length = min 60 (rrfScoresOf [0, 2] [2, 1]).length
      ∧ (∀ i ∈ searchCandidates [0, 2] [2, 1], ∃ s, (i, s) ∈ rrfScoresOf [0, 2] [2, 1] ∧
          ∀ p ∈ rrfScoresOf [0, 2] [2, 1], p.1 ∉ searchCandidates [0, 2] [2, 1] → p.2 ≤ s)) :=
  ⟨⟨by decide, by decide⟩, c5_rrf_fusion [0, 2] [2, 1] (by decide) (by decide)⟩

/-! ## Claim C9: snapshot alignment and atomic replacement -/

theorem getD_map_lt {α β : Type} (f : α → β) (l : List α) (i : Nat) (d : α) (e : β)
    (h : i < l.length) : (l.map f).getD i e = f (l.getD i d) := by
  rw [List.getD_eq_getElem _ _ (by simpa using h), List.getElem_map,
    List.getD_eq_getElem _ _ h]

theorem getD_zipWith_lt (f : ℚ → ℚ → ℚ) (a b : List ℚ) (i : Nat) (da db : ℚ)
    (ha : i < a.length) (hb : i < b.length) :
    (List.zipWith f a b).getD i 0 = f (a.getD i da) (b.getD i db) := by
  rw [List.getD_eq_getElem _ _ (by rw [List.length_zipWith]; omega),
    List.getElem_zipWith, List.getD_eq_getElem _ _ ha, List.getD_eq_getElem _ _ hb]

/-- C9: after a refresh, items, composed texts, embedding rows and the
tokenized lexical corpus all have the corpus cardinality and are
index-aligned (row i derives from message i); the fields are replaced
together as the one snapshot ensure_fresh installs; and an empty corpus
produces the zero-row 384-column matrix rather than a null artifact. -/
theorem c9_fetch_alignment (embedOne : String → List ℚ) (payload : List Msg)
    (st : StoreState) (hre : st.data = none ∨ st.stale = true) :
    (fetchBuild embedOne payload).items.length = payload.length
    ∧ (fetchBuild embedOne payload).texts.length = payload.length
    ∧ (fetchBuild embedOne payload).embRows.length = payload.length
    ∧ (fetchBuild embedOne payload).bm25Corpus.length = payload.length
    ∧ (∀ i, i < payload.length →
        (fetchBuild embedOne payload).texts.getD i "" =
          composeText (payload.getD i defaultMsg)
        ∧ (fetchBuild embedOne payload).bm25Corpus.getD i [] =
            tokenize ((fetchBuild embedOne payload).texts.getD i "")
        ∧ (payload ≠ [] → (fetchBuild embedOne payload).embRows.getD i [] =
            embedOne ((fetchBuild embedOne payload).texts.getD i "")))
    ∧ (payload = [] → (fetchBuild embedOne payload).embRows = []
        ∧ (fetchBuild embedOne payload).embCols = 384)
    ∧ ensureFresh embedOne payload st =
        { modelsReady := true, data := some (fetchBuild embedOne payload),
          stale := false } := by
  have hitems : (fetchBuild embedOne payload).items.length = payload.length := by
    simp [fetchBuild]
  have htexts : (fetchBuild embedOne payload).texts.length = payload.length := by
    simp [fetchBuild]
  have hrows : (fetchBuild embedOne payload).embRows.length = payload.length :=
    ((fetchBuild_wf embedOne payload).2.1).trans hitems
  refine ⟨hitems, htexts, hrows, by simp [fetchBuild], ?_, ?_,
    ensureFresh_refetch embedOne payload st hre⟩
  · intro i hi
    have hi2 : i < payload.length := hi
    refine ⟨?_, ?_, ?_⟩
    · show ((payload.map composeText).getD i "") = composeText (payload.getD i defaultMsg)
      exact getD_map_lt composeText payload i defaultMsg "" hi2
    · show ((payload.map composeText).map (fun t => tokenize t)).getD i [] =
        tokenize ((payload.map composeText).getD i "")
      exact getD_map_lt (fun t => tokenize t) (payload.map composeText) i "" []
        (by simpa using hi2)
    · intro hne
      have hne2 : (payload.map composeText).isEmpty = false := by
        rcases payload with _ | ⟨m, rest⟩
        · exact absurd rfl hne
        · rfl
      show ((fetchBuild embedOne payload).embRows).getD i [] =
        embedOne ((payload.map composeText).getD i "")
      have : (fetchBuild embedOne payload).embRows =
          (payload.map composeText).map embedOne := by
        simp only [fetchBuild, hne2]
        rfl
      rw [this]
      exact getD_map_lt embedOne (payload.map composeText) i "" []
        (by simpa using hi2)
  · intro hnil
    subst hnil
    exact ⟨rfl, rfl⟩

/-- Witness for C9 on a one-message corpus and the cold store state. -/
theorem c9_witness :
    (coldState.data = none ∨ coldState.stale = true)
    ∧ (fetchBuild demoEmbed payloadOne).items.length = payloadOne.length
    ∧ (∀ i, i < payloadOne.length →
        (fetchBuild demoEmbed payloadOne).texts.getD i "" =
          composeText (payloadOne.getD i defaultMsg))
    ∧ ensureFresh demoEmbed payloadOne coldState =
        { modelsReady := true, data := some (fetchBuild demoEmbed payloadOne),
          stale := false } := by
  have h := c9_fetch_alignment demoEmbed payloadOne coldState (Or.inl rfl)
  exact ⟨Or.inl rfl, h.1, fun i hi => (h.2.2.2.2.1 i hi).1, h.2.2.2.2.2.2⟩

/-! ## Claim C8: fetcher control flow -/

/-- C8 (amended): each attempt issues a GET with redirects disabled and
follows at most one redirect hop (never two); a 301/302/303/307/308 with a
truthy Location triggers exactly one more GET, the location being resolved
against the base URL only when it begins with a slash and used verbatim
otherwise; a redirect without Location falls through to status checking; a
final status in 400–599 (or a transport or body-parse error) fails the
attempt, while any other final status — below 400, a bare redirect
included, or 600 and above — passes; the /messages path is tried before
/messages/, the first success is returned, and when both fail the second
attempt's error is raised. -/
theorem c8_fetcher (net : String → Except String HttpResp) (base : String) :
    (∀ url, (authedGet net base url).2.length ≤ 2)
    ∧ (∀ url, (authedGet net base url).2.getD 0 "" = url)
    ∧ (∀ url r loc, net url = .ok r → redirectStatuses.contains r.status = true →
        r.location = some loc → loc ≠ "" →
        (authedGet net base url).2 =
          [url, if "/".data.isPrefixOf loc.data then base ++ loc else loc])
    ∧ (∀ url r, net url = .ok r → redirectStatuses.contains r.status = true →
        r.location = none → authedGet net base url = (raiseForStatus r, [url]))
    ∧ (∀ r, 400 ≤ r.status → r.status < 600 →
        raiseForStatus r = .error ("HTTPError " ++ toString r.status))
    ∧ (∀ r, r.status < 400 ∨ 600 ≤ r.status → raiseForStatus r = .ok r)
    ∧ (∀ v tr, getMessagesOnce net base (base ++ "/messages") = (.ok v, tr) →
        safeFetchMessages net base = (.ok v, tr))
    ∧ (∀ e1 t1 e2 t2, getMessagesOnce net base (base ++ "/messages") = (.error e1, t1) →
        getMessagesOnce net base (base ++ "/messages/") = (.error e2, t2) →
        safeFetchMessages net base = (.error e2, t1 ++ t2)) := by
  refine ⟨?_, ?_, ?_, ?_, ?_, ?_, ?_, ?_⟩
  · intro url
    rcases hnet : net url with e | r
    · simp only [authedGet, hnet]; simp
    · simp only [authedGet, hnet]
      by_cases hred : redirectStatuses.contains r.status = true
      · rw [if_pos hred]
        rcases hloc : r.location with _ | loc
        · simp
        · dsimp only
          by_cases hempty : loc = ""
          · rw [if_pos hempty]; simp
          · rw [if_neg hempty]
            rcases hnet2 : net (if "/".data.isPrefixOf loc.data then base ++ loc else loc)
              with e2 | r2
            · simp only [hnet2]; simp
            · simp only [hnet2]; simp
      · rw [if_neg hred]; simp
  · intro url
    rcases hnet : net url with e | r
    · simp only [authedGet, hnet]; simp
    · simp only [authedGet, hnet]
      by_cases hred : redirectStatuses.contains r.status = true
      · rw [if_pos hred]
        rcases hloc : r.location with _ | loc
        · simp
        · dsimp only
          by_cases hempty : loc = ""
          · rw [if_pos hempty]; simp
          · rw [if_neg hempty]
            rcases hnet2 : net (if "/".data.isPrefixOf loc.data then base ++ loc else loc)
              with e2 | r2
            · simp only [hnet2]; simp
            · simp only [hnet2]; simp
      · rw [if_neg hred]; simp
  · intro url r loc hnet hred hloc hne
    simp only [authedGet, hnet, hred, if_true, hloc]
    dsimp only
    rw [if_neg hne]
    rcases hnet2 : net (if "/".data.isPrefixOf loc.data then base ++ loc else loc)
      with e2 | r2
    · simp only [hnet2]
    · simp only [hnet2]
  · intro url r hnet hred hloc
    simp only [authedGet, hnet, hred, if_true, hloc]
  · intro r h1 h2
    rw [raiseForStatus, if_pos ⟨h1, h2⟩]
  · intro r h
    rw [raiseForStatus, if_neg (by omega)]
  · intro v tr h
    rw [safeFetchMessages, h]
  · intro e1 t1 e2 t2 h1 h2
    rw [safeFetchMessages, h1, h2]

/-- Witness for C8: a 404 fails, a 600 passes, and the trace of the
one-redirect attempt is bounded. -/
theorem c8_witness :
    raiseForStatus { status := 404, location := none, jsonItems := none } =
      Except.error "HTTPError 404"
    ∧ raiseForStatus { status := 600, location := none, jsonItems := some [] } =
        Except.ok { status := 600, location := none, jsonItems := some [] }
    ∧ (authedGet netC8 "https://base" "https://base/messages").2.length ≤ 2 :=
  ⟨(c8_fetcher netC8 "https://base").2.2.2.2.1 _ (by decide) (by decide),
   (c8_fetcher netC8 "https://base").2.2.2.2.2.1 _ (Or.inr (by decide)),
   (c8_fetcher netC8 "https://base").1 "https://base/messages"⟩

/-- Counterexample to C8 as stated: a bare 302 without Location is not
treated as a failed attempt — raise_for_status only rejects statuses in
400–599, so the fetch succeeds with a non-2xx final status. -/
theorem c8_counterexample :
    netC8 "https://base/messages" =
      Except.ok { status := 302, location := none, jsonItems := some [] }
    ∧ redirectStatuses.contains 302 = true
    ∧ safeFetchMessages netC8 "https://base" =
        (Except.ok [], ["https://base/messages"]) := by
  refine ⟨rfl, by decide, ?_⟩
  rfl

/-! ## Claim C1: search has no unreranked fallback path -/

theorem ensureFresh_modelsReady (embed : String → List ℚ) (payload : List Msg)
    (st : StoreState) : (ensureFresh embed payload st).modelsReady = true := by
  rw [ensureFresh]
  by_cases h : (({ st with modelsReady := true } : StoreState).data.isNone ||
      ({ st with modelsReady := true } : StoreState).stale) = true
  · rw [if_pos h]
  · rw [if_neg h]

/-- C1 (amended): search never takes a fused-order fallback path: whatever
the model-readiness flag when it is called, ensure_fresh loads the models
and the cross-encoder reranks — the output is ordered by descending
reranker score, and every returned score field is the reranker score of
that candidate's composed text, never the fused score. -/
theorem c1_search_always_reranks (embed : String → List ℚ)
    (bmDoc : List (List String) → List String → List String → ℚ)
    (ce : String → String → ℚ) (payload : List Msg) (st : StoreState)
    (query : String) (filter : Option String) (topK : Nat)
    (hst : ∀ dd, st.data = some dd → StoreWF dd) :
    (searchFull embed bmDoc ce payload st query filter topK).Pairwise
      (fun a b : Snippet => b.score ≤ a.score)
    ∧ (∀ r ∈ searchFull embed bmDoc ce payload st query filter topK,
        ∃ i, i < (refreshedData embed payload st).items.length
          ∧ r.score = ce query ((refreshedData embed payload st).texts.getD i "")
          ∧ ((refreshedData embed payload st).items.getD i defaultMsg).message = r.message)
    ∧ (ensureFresh embed payload st).modelsReady = true := by
  have hwf := refreshedData_wf embed payload st hst
  rw [searchFull]
  refine ⟨searchData_pairwise _ _ _ _ _ _ _, ?_, ensureFresh_modelsReady _ _ _⟩
  intro r hr
  obtain ⟨i, hi, _, _, h3, h4⟩ := searchData_mem hwf hr
  exact ⟨i, hi, h4, h3⟩

/-- Witness for C1 (amended) on a cold store (models not loaded) with a
one-message corpus. -/
theorem c1_witness :
    coldState.modelsReady = false
    ∧ ((searchFull demoEmbed demoBmDoc demoCe payloadOne coldState "q" none 10).Pairwise
        (fun a b : Snippet => b.score ≤ a.score)
      ∧ (∀ r ∈ searchFull demoEmbed demoBmDoc demoCe payloadOne coldState "q" none 10,
          ∃ i, i < (refreshedData demoEmbed payloadOne coldState).items.length
            ∧ r.score = demoCe "q" ((refreshedData demoEmbed payloadOne coldState).texts.getD i "")
            ∧ ((refreshedData demoEmbed payloadOne coldState).items.getD i defaultMsg).message = r.message)
      ∧ (ensureFresh demoEmbed payloadOne coldState).modelsReady = true) :=
  ⟨rfl, c1_search_always_reranks demoEmbed demoBmDoc demoCe payloadOne coldState
    "q" none 10 (fun dd h => by simp [coldState] at h)⟩

/-- Counterexample to C1 as stated: with the models not yet loaded when
search is called, the output is still reranked — message 0 has the strictly
larger fused score, yet message 1 is returned first, and the returned
score fields are the cross-encoder scores 5 and 1, not the fused scores. -/
theorem c1_counterexample :
    coldState.modelsReady = false
    ∧ refreshedData embedC1 payloadC1 coldState = fetchBuild embedC1 payloadC1
    ∧ bm25Topn bmDocC1 (fetchBuild embedC1 payloadC1) "q" 100 = [0, 1]
    ∧ embeddingTopn embedC1 (fetchBuild embedC1 payloadC1) "q" none 100 = [0, 1]
    ∧ lookupScore 0 (rrfScoresOf [0, 1] [0, 1]) = 2 / 61
    ∧ lookupScore 1 (rrfScoresOf [0, 1] [0, 1]) = 1 / 31
    ∧ (1 : ℚ) / 31 < 2 / 61
    ∧ searchFull embedC1 bmDocC1 ceC1 payloadC1 coldState "q" none 10 =
        [{ user_name := some "Bob", timestamp := "t1", message := "m1", score := 5 },
         { user_name := some "Ana", timestamp := "t0", message := "m0", score := 1 }] := by
  have hrd : refreshedData embedC1 payloadC1 coldState = fetchBuild embedC1 payloadC1 :=
    refreshedData_of_refetch _ _ _ (Or.inl rfl)
  have hraw : rawSims embedC1 (fetchBuild embedC1 payloadC1) "q" = [2, 1] := by
    have hrows : (fetchBuild embedC1 payloadC1).embRows = [[2], [1]] := by decide
    have hq : embedC1 "q" = [1] := by decide
    rw [rawSims, hrows, hq]
    norm_num [dotQ]
  have hem : embeddingTopn embedC1 (fetchBuild embedC1 payloadC1) "q" none 100 = [0, 1] := by
    have hb : boostedSims embedC1 (fetchBuild embedC1 payloadC1) "q" none =
        rawSims embedC1 (fetchBuild embedC1 payloadC1) "q" := rfl
    rw [embeddingTopn, hb, hraw]
    norm_num [argsortDesc, List.insertionSort, List.orderedInsert, scoreRel]
  have hbm : bm25Topn bmDocC1 (fetchBuild embedC1 payloadC1) "q" 100 = [0, 1] := by decide
  refine ⟨rfl, hrd, hbm, hem, ?_, ?_, by norm_num, ?_⟩
  · norm_num [rrfScoresOf, rrfOf, buildRanks, addRanks, addRank, lookupScore]
  · norm_num [rrfScoresOf, rrfOf, buildRanks, addRanks, addRank, lookupScore]
  · have hcand : searchCandidates [0, 1] [0, 1] = [0, 1] := by
      norm_num [searchCandidates, nlargest, rrfScoresOf, rrfOf, buildRanks, addRanks,
        addRank, List.insertionSort, List.orderedInsert, pairGe]
    have hce : ([0, 1].map
        (fun i => ceC1 "q" ((fetchBuild embedC1 payloadC1).texts.getD i ""))) = [1, 5] := by
      decide
    rw [searchFull, hrd, searchData]
    simp only [hbm, hem, hcand, hce]
    norm_num [argsortDesc, List.insertionSort, List.orderedInsert, scoreRel]
    decide

/-! ## Claim C7: the person boost -/

theorem pairwise_indexOf_lt {r : Nat → Nat → Prop} :
    ∀ (l : List Nat), l.Pairwise r → l.Nodup → ∀ i j : Nat, i ∈ l → j ∈ l →
      r i j → ¬ r j i → l.indexOf i < l.indexOf j := by
  intro l
  induction l with
  | nil => intro _ _ i j hi _ _ _; exact absurd hi (List.not_mem_nil i)
  | cons a t ih =>
    intro hp hnd i j hi hj hrij hnrji
    rw [List.pairwise_cons] at hp
    rw [List.nodup_cons] at hnd
    have hij : i ≠ j := fun h => hnrji (h ▸ hrij)
    rcases List.mem_cons.mp hi with hia | hit
    · subst hia
      have hjt : j ∈ t := by
        rcases List.mem_cons.mp hj with hja | hjt
        · exact absurd hja.symm hij
        · exact hjt
      rw [List.indexOf_cons_self, List.indexOf_cons_ne _ hij]
      exact Nat.succ_pos _
    · rcases List.mem_cons.mp hj with hja | hjt
      · subst hja
        exact absurd (hp.1 i hit) hnrji
      · have hai : a ≠ i := fun h => hnd.1 (h ▸ hit)
        have haj : a ≠ j := fun h => hnd.1 (h ▸ hjt)
        rw [List.indexOf_cons_ne _ hai, List.indexOf_cons_ne _ haj]
        exact Nat.succ_lt_succ (ih hp.2 hnd.2 i j hit hjt hrij hnrji)

theorem pairwise_indexOf_lt_iff {s : List ℚ} {l : List Nat}
    (hp : l.Pairwise (scoreRel s)) (hnd : l.Nodup) {i j : Nat}
    (hi : i ∈ l) (hj : j ∈ l) (hij : i ≠ j) :
    l.indexOf i < l.indexOf j ↔ scoreRel s i j := by
  constructor
  · intro hlt
    by_contra hn
    rcases total_of (scoreRel s) i j with h | h
    · exact hn h
    · have := pairwise_indexOf_lt l hp hnd j i hj hi h hn
      omega
  · intro hr
    have hnr : ¬ scoreRel s j i := fun h2 => hij (scoreRel_antisymm hr h2)
    exact pairwise_indexOf_lt l hp hnd i j hi hj hr hnr

theorem boostedSims_length_of_wf (embed : String → List ℚ) (st : StoreData)
    (query : String) (u : String) (hu : ¬ u = "")
    (hlen : st.embRows.length = st.items.length) (hne : st.items ≠ []) :
    (boostedSims embed st query (some u)).length = st.items.length := by
  simp only [boostedSims]
  have hraw : (rawSims embed st query).length = st.items.length := by
    rw [rawSims_length, hlen]
  have hcond : (!(u == "") && !(rawSims embed st query).isEmpty) = true := by
    have h1 : (u == "") = false := beq_eq_false_iff_ne.mpr hu
    have h2 : (rawSims embed st query).isEmpty = false := by
      rcases hl : rawSims embed st query with _ | ⟨x, xs⟩
      · rw [hl] at hraw
        simp at hraw
        exact absurd (List.length_eq_zero.mp hraw.symm) hne
      · rfl
    rw [h1, h2]
    rfl
  rw [if_pos hcond, List.length_zipWith, hraw]
  simp [boostMask]

theorem boostedSims_getD (embed : String → List ℚ) (st : StoreData)
    (query : String) (u : String) (hu : ¬ u = "")
    (hlen : st.embRows.length = st.items.length) (i : Nat)
    (hi : i < st.items.length) :
    (boostedSims embed st query (some u)).getD i 0 =
      (rawSims embed st query).getD i 0 *
        (if (st.items.getD i defaultMsg).user_name == some u then (23 : ℚ) / 20
         else 1) := by
  have hne : st.items ≠ [] := by
    intro h; rw [h] at hi; simp at hi
  have hraw : (rawSims embed st query).length = st.items.length := by
    rw [rawSims_length, hlen]
  have hblen : (boostedSims embed st query (some u)).length = st.items.length :=
    boostedSims_length_of_wf embed st query u hu hlen hne
  have hcond : (!(u == "") && !(rawSims embed st query).isEmpty) = true := by
    have h1 : (u == "") = false := beq_eq_false_iff_ne.mpr hu
    have h2 : (rawSims embed st query).isEmpty = false := by
      rcases hl : rawSims embed st query with _ | ⟨x, xs⟩
      · rw [hl] at hraw
        simp at hraw
        exact absurd (List.length_eq_zero.mp hraw.symm) hne
      · rfl
    rw [h1, h2]
    rfl
  have hzip : boostedSims embed st query (some u) =
      List.zipWith (fun x y => x * y) (rawSims embed st query) (boostMask u st.items) := by
    simp only [boostedSims]
    rw [if_pos hcond]
  rw [hzip, getD_zipWith_lt _ _ _ i 0 1 (by rw [hraw]; exact hi)
    (by simpa [boostMask] using hi)]
  congr 1
  exact getD_map_lt (fun it => if it.user_name == some u then (23 : ℚ) / 20 else 1)
    st.items i defaultMsg 1 hi

/-- C7 (amended): with a person filter, exactly the messages whose user_name
equals the filter have their similarity multiplied by 1.15 before the
top-100 cut (all others keep their raw similarity and remain eligible), and
the relative order of any two non-matching messages — a missing user_name
included — is unchanged; but a non-matching message can still lose absolute
rank to a boosted one, as the counterexample shows. -/
theorem c7_person_boost (embed : String → List ℚ) (st : StoreData)
    (query : String) (u : String) (hu : ¬ u = "")
    (hlen : st.embRows.length = st.items.length) :
    (∀ i, i < st.items.length →
      (boostedSims embed st query (some u)).getD i 0 =
        (rawSims embed st query).getD i 0 *
          (if (st.items.getD i defaultMsg).user_name == some u then (23 : ℚ) / 20
           else 1))
    ∧ (∀ i j, i < st.items.length → j < st.items.length → i ≠ j →
        (st.items.getD i defaultMsg).user_name ≠ some u →
        (st.items.getD j defaultMsg).user_name ≠ some u →
        ((argsortDesc (boostedSims embed st query (some u))).indexOf i <
            (argsortDesc (boostedSims embed st query (some u))).indexOf j ↔
          (argsortDesc (rawSims embed st query)).indexOf i <
            (argsortDesc (rawSims embed st query)).indexOf j)) := by
  refine ⟨fun i hi => boostedSims_getD embed st query u hu hlen i hi, ?_⟩
  intro i j hi hj hij hui huj
  have hne : st.items ≠ [] := by
    intro h; rw [h] at hi; simp at hi
  have hblen : (boostedSims embed st query (some u)).length = st.items.length :=
    boostedSims_length_of_wf embed st query u hu hlen hne
  have hrawlen : (rawSims embed st query).length = st.items.length := by
    rw [rawSims_length, hlen]
  have hbi : (boostedSims embed st query (some u)).getD i 0 =
      (rawSims embed st query).getD i 0 := by
    rw [boostedSims_getD embed st query u hu hlen i hi]
    rw [if_neg (by simpa using hui), mul_one]
  have hbj : (boostedSims embed st query (some u)).getD j 0 =
      (rawSims embed st query).getD j 0 := by
    rw [boostedSims_getD embed st query u hu hlen j hj]
    rw [if_neg (by simpa using huj), mul_one]
  have hrel : ∀ a b : Nat, a = i ∨ a = j → b = i ∨ b = j →
      (scoreRel (boostedSims embed st query (some u)) a b ↔
       scoreRel (rawSims embed st query) a b) := by
    intro a b ha hb
    have hga : (boostedSims embed st query (some u)).getD a 0 =
        (rawSims embed st query).getD a 0 := by
      rcases ha with h | h <;> subst h <;> assumption
    have hgb : (boostedSims embed st query (some u)).getD b 0 =
        (rawSims embed st query).getD b 0 := by
      rcases hb with h | h <;> subst h <;> assumption
    unfold scoreRel
    rw [hga, hgb]
  have h1 := pairwise_indexOf_lt_iff (argsortDesc_pairwise
      (boostedSims embed st query (some u)))
    (argsortDesc_nodup _)
    (argsortDesc_mem.mpr (by rw [hblen]; exact hi))
    (argsortDesc_mem.mpr (by rw [hblen]; exact hj)) hij
  have h2 := pairwise_indexOf_lt_iff (argsortDesc_pairwise
      (rawSims embed st query))
    (argsortDesc_nodup _)
    (argsortDesc_mem.mpr (by rw [hrawlen]; exact hi))
    (argsortDesc_mem.mpr (by rw [hrawlen]; exact hj)) hij
  rw [h1, h2, hrel i j (Or.inl rfl) (Or.inr rfl)]

/-- Witness for C7 (amended) on the Bob/Ana corpus with filter Ana. -/
theorem c7_witness :
    (¬ ("Ana" : String) = ""
      ∧ (fetchBuild embedC7 payloadC7Bob).embRows.length =
          (fetchBuild embedC7 payloadC7Bob).items.length)
    ∧ ((∀ i, i < (fetchBuild embedC7 payloadC7Bob).items.length →
        (boostedSims embedC7 (fetchBuild embedC7 payloadC7Bob) "q" (some "Ana")).getD i 0 =
          (rawSims embedC7 (fetchBuild embedC7 payloadC7Bob) "q").getD i 0 *
            (if ((fetchBuild embedC7 payloadC7Bob).items.getD i defaultMsg).user_name ==
                some "Ana" then (23 : ℚ) / 20 else 1))
      ∧ (∀ i j, i < (fetchBuild embedC7 payloadC7Bob).items.length →
          j < (fetchBuild embedC7 payloadC7Bob).items.length → i ≠ j →
          ((fetchBuild embedC7 payloadC7Bob).items.getD i defaultMsg).user_name ≠ some "Ana" →
          ((fetchBuild embedC7 payloadC7Bob).items.getD j defaultMsg).user_name ≠ some "Ana" →
          ((argsortDesc (boostedSims embedC7 (fetchBuild embedC7 payloadC7Bob) "q"
              (some "Ana"))).indexOf i <
              (argsortDesc (boostedSims embedC7 (fetchBuild embedC7 payloadC7Bob) "q"
                (some "Ana"))).indexOf j ↔
            (argsortDesc (rawSims embedC7 (fetchBuild embedC7 payloadC7Bob) "q")).indexOf i <
              (argsortDesc (rawSims embedC7 (fetchBuild embedC7 payloadC7Bob) "q")).indexOf j))) :=
  ⟨⟨by decide, by decide⟩,
   c7_person_boost embedC7 (fetchBuild embedC7 payloadC7Bob) "q" "Ana"
     (by decide) (by decide)⟩

/-- Counterexample to C7 as stated: the boost does change the ranking of
non-matching messages — with filter Ana, Bob's message (and likewise a
message with a null user_name) drops from rank 0 to rank 1 even though its
own similarity is untouched. -/
theorem c7_counterexample :
    ((fetchBuild embedC7 payloadC7Bob).items.getD 0 defaultMsg).user_name = some "Bob"
    ∧ embeddingTopn embedC7 (fetchBuild embedC7 payloadC7Bob) "q" none 100 = [0, 1]
    ∧ embeddingTopn embedC7 (fetchBuild embedC7 payloadC7Bob) "q" (some "Ana") 100 = [1, 0]
    ∧ ((fetchBuild embedC7 payloadC7None).items.getD 0 defaultMsg).user_name = none
    ∧ embeddingTopn embedC7 (fetchBuild embedC7 payloadC7None) "q" none 100 = [0, 1]
    ∧ embeddingTopn embedC7 (fetchBuild embedC7 payloadC7None) "q" (some "Ana") 100 = [1, 0] := by
  have hqb : embedC7 "q" = [1] := by decide
  have hrowsB : (fetchBuild embedC7 payloadC7Bob).embRows = [[10], [9]] := by decide
  have hrowsN : (fetchBuild embedC7 payloadC7None).embRows = [[10], [9]] := by decide
  have hrawB : rawSims embedC7 (fetchBuild embedC7 payloadC7Bob) "q" = [10, 9] := by
    rw [rawSims, hrowsB, hqb]; norm_num [dotQ]
  have hrawN : rawSims embedC7 (fetchBuild embedC7 payloadC7None) "q" = [10, 9] := by
    rw [rawSims, hrowsN, hqb]; norm_num [dotQ]
  have hmaskB : boostMask "Ana" (fetchBuild embedC7 payloadC7Bob).items = [1, 23 / 20] := by
    show boostMask "Ana" payloadC7Bob = [1, 23 / 20]
    rw [boostMask, payloadC7Bob]
    simp only [List.map_cons, List.map_nil]
    rw [if_neg (by decide), if_pos (by decide)]
  have hmaskN : boostMask "Ana" (fetchBuild embedC7 payloadC7None).items = [1, 23 / 20] := by
    show boostMask "Ana" payloadC7None = [1, 23 / 20]
    rw [boostMask, payloadC7None]
    simp only [List.map_cons, List.map_nil]
    rw [if_neg (by decide), if_pos (by decide)]
  have hboostB : boostedSims embedC7 (fetchBuild embedC7 payloadC7Bob) "q" (some "Ana") =
      [10 * 1, 9 * (23 / 20)] := by
    simp only [boostedSims]
    rw [hrawB, if_pos (by rfl), hmaskB]
    rfl
  have hboostN : boostedSims embedC7 (fetchBuild embedC7 payloadC7None) "q" (some "Ana") =
      [10 * 1, 9 * (23 / 20)] := by
    simp only [boostedSims]
    rw [hrawN, if_pos (by rfl), hmaskN]
    rfl
  refine ⟨by decide, ?_, ?_, by decide, ?_, ?_⟩
  · rw [embeddingTopn]
    rw [show boostedSims embedC7 (fetchBuild embedC7 payloadC7Bob) "q" none =
      rawSims embedC7 (fetchBuild embedC7 payloadC7Bob) "q" from rfl, hrawB]
    norm_num [argsortDesc, List.insertionSort, List.orderedInsert, scoreRel]
  · rw [embeddingTopn, hboostB]
    norm_num [argsortDesc, List.insertionSort, List.orderedInsert, scoreRel]
  · rw [embeddingTopn]
    rw [show boostedSims embedC7 (fetchBuild embedC7 payloadC7None) "q" none =
      rawSims embedC7 (fetchBuild embedC7 payloadC7None) "q" from rfl, hrawN]
    norm_num [argsortDesc, List.insertionSort, List.orderedInsert, scoreRel]
  · rw [embeddingTopn, hboostN]
    norm_num [argsortDesc, List.insertionSort, List.orderedInsert, scoreRel]

/-! ## Claim C3: the empty corpus -/

theorem extractCandidateName_nil (extractOne : String → List String → Option (String × ℚ))
    (hE : ∀ q, extractOne q [] = none) (question : String) :
    extractCandidateName extractOne question [] = (none, 0) := by
  rw [extractCandidateName]
  have hfold : ∀ (qs : List String),
      qs.foldl (fun (best : Option String × ℚ) q =>
        match extractOne q [] with
        | some (cand, score) => if best.2 < score then (some cand, score) else best
        | none => best) (none, 0) = (none, 0) := by
    intro qs
    induction qs with
    | nil => rfl
    | cons q rest ih => rw [List.foldl_cons, hE q]; exact ih
  rw [hfold]
  norm_num

theorem askGates_nil (q : String) :
    askGates q none [] = GateOutcome.refuse
      (if !(extractFocusTerms q none).isEmpty then focusReason
       else if subIn "when".data (lcList q) then whenReason
       else if (subIn "how many".data (lcList q) || subIn "how much".data (lcList q)) then
         qtyReason
       else noEvidenceReason) := by
  have hq : hasQuantityish
      (String.intercalate " " (([] : List Snippet).map (fun s => s.message))) = false := by
    decide
  rw [askGates]
  simp only [List.any_nil, List.isEmpty_nil, Bool.not_false, Bool.and_true, hq, if_true]
  split_ifs <;> rfl

/-- C3 (amended): on an empty corpus search returns the empty list for every
query, and the service refuses every question — but the reason is
no-evidence-at-all only when the question yields no focus terms and
contains neither when nor how many/how much; otherwise the earlier focus,
temporal or quantity gate fires first with its own reason. -/
theorem c3_empty_corpus (extractOne : String → List String → Option (String × ℚ))
    (embed : String → List ℚ)
    (bmDoc : List (List String) → List String → List String → ℚ)
    (ce : String → String → ℚ) (st : StoreState)
    (hE : ∀ q, extractOne q [] = none)
    (hd : st.data = none ∨ st.stale = true) :
    (∀ query filter topK, searchFull embed bmDoc ce [] st query filter topK = [])
    ∧ (∀ question, askCore extractOne embed bmDoc ce [] st question =
        GateOutcome.refuse
          (if !(extractFocusTerms (normalizeText question) none).isEmpty then focusReason
           else if subIn "when".data (lcList (normalizeText question)) then whenReason
           else if (subIn "how many".data (lcList (normalizeText question)) ||
               subIn "how much".data (lcList (normalizeText question))) then qtyReason
           else noEvidenceReason)) := by
  have hrd : refreshedData embed [] st = fetchBuild embed [] :=
    refreshedData_of_refetch _ _ _ hd
  have hsearch : ∀ query filter topK,
      searchFull embed bmDoc ce [] st query filter topK = [] := by
    intro query filter topK
    rw [searchFull, hrd]
    exact searchData_of_items_nil _ _ _ _ _ _ _ (fetchBuild_wf _ _) rfl
  refine ⟨hsearch, ?_⟩
  intro question
  have hsearch2 : ∀ query filter topK,
      searchFull embed bmDoc ce []
        { modelsReady := true, data := some (fetchBuild embed []), stale := false }
        query filter topK = [] := by
    intro query filter topK
    rw [searchFull]
    have : refreshedData embed []
        { modelsReady := true, data := some (fetchBuild embed []), stale := false } =
        fetchBuild embed [] := rfl
    rw [this]
    exact searchData_of_items_nil _ _ _ _ _ _ _ (fetchBuild_wf _ _) rfl
  simp only [askCore]
  rw [ensureFresh_refetch embed [] st hd]
  dsimp only [Option.getD_some]
  have hnames : (fetchBuild embed []).userNames = [] := rfl
  rw [hnames, extractCandidateName_nil extractOne hE]
  dsimp only
  rw [hsearch2, askGates_nil]

/-- Witness for C3 (amended): the cold store with oracles that never match a
name; a contentless question is refused with the no-evidence reason. -/
theorem c3_witness :
    (∀ q, demoExtractOne q [] = none)
    ∧ (coldState.data = none ∨ coldState.stale = true)
    ∧ searchFull demoEmbed demoBmDoc demoCe [] coldState "anything" none 10 = []
    ∧ askCore demoExtractOne demoEmbed demoBmDoc demoCe [] coldState "is it so" =
        GateOutcome.refuse noEvidenceReason := by
  have h := c3_empty_corpus demoExtractOne demoEmbed demoBmDoc demoCe coldState
    (fun _ => rfl) (Or.inl rfl)
  refine ⟨fun _ => rfl, Or.inl rfl, h.1 "anything" none 10, ?_⟩
  rw [h.2 "is it so"]
  decide

/-- Counterexample to C3 as stated: on the empty corpus a when-question is
refused by the temporal gate, not with the no-evidence-at-all reason. -/
theorem c3_counterexample :
    askCore demoExtractOne demoEmbed demoBmDoc demoCe [] coldState "when is it" =
      GateOutcome.refuse whenReason
    ∧ whenReason ≠ noEvidenceReason := by
  refine ⟨?_, by decide⟩
  decide

end MemberQA
